import Mathlib

/-!
Verification development for the ponglab room-coordination server.

The definitions below are a shallow embedding of the TypeScript backend
(src/backend/models/Room.ts, src/backend/models/Player.ts,
src/backend/services/RoomService.ts, src/backend/controllers/RoomController.ts).
JavaScript `Map` objects are modelled as insertion-ordered association lists,
and mutable, aliased `Player` objects are modelled as references (list
indices) into an explicit heap, so that `player.setHost(...)` performed
through one alias is visible through every other alias, exactly as in the
source.  Numbers that the source only ever uses as integers (scores,
timestamps) are `Nat`; ball and paddle coordinates are real numbers.
-/

/-- src/backend/models/Player.ts: the `Player` class fields.  `id` is the
transport-session handle, `room` the name of the room the player was created
in. -/
structure Player where
  id : String
  name : String
  room : String
  isHost : Bool
  isActive : Bool
deriving DecidableEq, Repr

/-- Player.setHost from Player.ts. -/
def Player.setHost (p : Player) (b : Bool) : Player :=
  { p with isHost := b }

/-- GameState.scores from Room.ts. -/
structure Scores where
  player1 : Nat
  player2 : Nat
deriving DecidableEq, Repr

/-- GameState.paddles from Room.ts. -/
structure Paddles where
  player1 : ℝ
  player2 : ℝ

/-- GameState.ball from Room.ts.  `lastTouched` holds "player1"/"player2". -/
structure Ball where
  x : ℝ
  y : ℝ
  vx : ℝ
  vy : ℝ
  lastTouched : Option String

/-- The GameState interface from Room.ts.  The source stores live Player
object references in `players`; only the immutable `id` field of those
objects is ever read (RoomService.ts handleDisconnect), so value snapshots
are observation-equivalent. -/
structure GameState where
  players : List Player
  scores : Scores
  ball : Ball
  paddles : Paddles
  winner : Option String
  timestamp : Option Nat

/-- A reference into the player heap (models a JS object reference). -/
abbrev Ref := Nat

/-- The Room class fields from Room.ts.  `players` and `guests` are JS Maps
from player id to a (shared, mutable) Player object, modelled as
insertion-ordered association lists of heap references.  `password` is
`string | null` in the source but every constructor call passes a string and
falsiness is the empty string, so it is a `String` here. -/
structure Room where
  name : String
  password : String
  hostName : String
  hostId : String
  players : List (String × Ref)
  guests : List (String × Ref)
  gameState : Option GameState
  isGameActive : Bool
  selectedPlayers : List String

/-- The Room constructor from Room.ts (argument order name, password,
hostId, hostName). -/
def Room.new (name password hostId hostName : String) : Room :=
  { name := name, password := password, hostName := hostName
    hostId := hostId, players := [], guests := [], gameState := none
    isGameActive := false, selectedPlayers := [] }

/-- The replicated room metadata consumed by
RoomService.createRoomFromMetadata.  `selectedPlayers` is `none` when the
field is absent from the payload; a present empty list is truthy in JS. -/
structure RoomMetadata where
  password : Option String
  hostId : String
  hostName : String
  isGameActive : Bool
  selectedPlayers : Option (List String)

/-- The inbound game-update payload ({ ball, paddles, scores }). -/
structure GameUpdateData where
  ball : Option Ball
  paddles : Option Paddles
  scores : Option Scores

/-- A replicated state message as consumed by RoomController.updateRoomState
({ timestamp, serverId, state }). -/
structure StateMsg where
  timestamp : Nat
  serverId : String
  state : GameState

/-- Outcome of a service call: a JS `throw new Error(msg)`, or the TypeError
raised by dereferencing a null gameState through the non-null assertion
`room.gameState!`. -/
inductive Err where
  | thrown (msg : String)
  | nullAssertion
deriving DecidableEq, Repr

deriving instance DecidableEq for Except

/-- The RoomService class state: the `rooms` and `players` Maps plus the
heap of Player objects that both the service map and the room member maps
alias into. -/
structure RoomService where
  heap : List Player
  rooms : List (String × Room)
  players : List (String × Ref)

/-! ### JS `Map` semantics over association lists -/

/-- Map.get. -/
def mapLookup {α : Type} (m : List (String × α)) (k : String) : Option α :=
  (m.find? fun e => e.1 = k).map (·.2)

/-- Map.set: replaces in place when the key exists (keeping insertion
order), appends otherwise. -/
def mapSet {α : Type} (m : List (String × α)) (k : String) (v : α) :
    List (String × α) :=
  if m.any fun e => e.1 = k then
    m.map fun e => if e.1 = k then (k, v) else e
  else m ++ [(k, v)]

/-- Map.delete. -/
def mapDelete {α : Type} (m : List (String × α)) (k : String) :
    List (String × α) :=
  m.filter fun e => e.1 ≠ k

/-- Map.has. -/
def mapHas {α : Type} (m : List (String × α)) (k : String) : Bool :=
  m.any fun e => e.1 = k

/-- The Player object a reference denotes (references produced by the
embedded operations are always in bounds; the default is never reached from
a state built by them). -/
def heapGet (h : List Player) (r : Ref) : Player :=
  (h.get? r).getD ⟨"", "", "", false, false⟩

/-- Overwrite one heap cell. -/
def heapSet (h : List Player) (r : Ref) (p : Player) : List Player :=
  h.set r p

/-- `player.setHost(b)` performed through a reference. -/
def heapSetHost (h : List Player) (r : Ref) (b : Bool) : List Player :=
  heapSet h r ((heapGet h r).setHost b)

/-! ### Room methods (Room.ts) -/

/-- Room.addPlayer. -/
def Room.addPlayer (room : Room) (playerId : String) (r : Ref) : Room :=
  { room with players := mapSet room.players playerId r }

/-- Room.addGuest. -/
def Room.addGuest (room : Room) (playerId : String) (r : Ref) : Room :=
  { room with guests := mapSet room.guests playerId r }

/-- Room.removePlayer: deletes the id from both member maps. -/
def Room.removePlayer (room : Room) (playerId : String) : Room :=
  { room with
    players := mapDelete room.players playerId
    guests := mapDelete room.guests playerId }

/-- Room.startGame from Room.ts.  The two `Math.random()` draws are the
explicit parameters `r1` (direction pick, compared against 0.5) and `r2`
(position inside the angle band); `now` is `Date.now()`.  The selected
players are stored as snapshots (see GameState.players). -/
noncomputable def Room.startGame (room : Room) (selectedPlayers : List Player)
    (r1 r2 : ℝ) (now : Nat) : Room :=
  let angle : ℝ :=
    if r1 < 0.5 then Real.pi / 6 + r2 * (Real.pi / 6)
    else Real.pi * 2 / 3 + r2 * (Real.pi / 6)
  let speed : ℝ := 500
  let vx := Real.cos angle * speed
  let vy := Real.sin angle * speed
  { room with
    gameState := some
      { players := selectedPlayers, scores := ⟨0, 0⟩
        ball := ⟨400, 300, vx, vy, none⟩
        paddles := ⟨250, 250⟩
        winner := none, timestamp := some now }
    isGameActive := true }

/-- Room.updateGame from Room.ts: overwrites ball, paddles and scores from
client data, refreshes the timestamp, and declares a winner when either
score has reached 10. -/
def Room.updateGame (room : Room) (ball : Ball) (paddles : Paddles)
    (scores : Scores) (now : Nat) : Room :=
  match room.gameState with
  | none => room
  | some gs =>
    let winner' :=
      if 10 ≤ scores.player1 ∨ 10 ≤ scores.player2 then
        some (if 10 ≤ scores.player1 then "player1" else "player2")
      else gs.winner
    { room with
      gameState := some
        { gs with
          ball := ball, paddles := paddles, scores := scores
          winner := winner', timestamp := some now } }

/-- Room.updateGamePhysics from Room.ts.  `rPerturb` is the random draw for
the right-paddle vy perturbation, `rAngle` the draw for the respawn angle
band, `now` is `Date.now()`.  The source mutates the ball in place, so each
test reads the already-moved coordinates; a paddle bounce does not change
`x`, hence the scoring test still sees the moved `x`. -/
noncomputable def Room.updateGamePhysics (room : Room)
    (deltaTime rPerturb rAngle : ℝ) (now : Nat) : Room :=
  match room.gameState with
  | none => room
  | some gs =>
    if room.isGameActive = false then room
    else
      let b := gs.ball
      let x1 := b.x + b.vx * deltaTime
      let y1 := b.y + b.vy * deltaTime
      let vy1 := if y1 ≤ 10 ∨ 590 ≤ y1 then -b.vy else b.vy
      let hitP1 := x1 ≤ 30 ∧ gs.paddles.player1 ≤ y1 ∧
        y1 ≤ gs.paddles.player1 + 100
      let hitP2 := 770 ≤ x1 ∧ gs.paddles.player2 ≤ y1 ∧
        y1 ≤ gs.paddles.player2 + 100
      let vx2 := if hitP1 then -b.vx else if hitP2 then -b.vx else b.vx
      let vy2 := if hitP1 then vy1
        else if hitP2 then vy1 + (rPerturb - 0.5) * 2 else vy1
      let lt2 := if hitP1 then some "player1"
        else if hitP2 then some "player2" else b.lastTouched
      let speed : ℝ := 500
      let sb :=
        if x1 < 0 then
          (Scores.mk gs.scores.player1 (gs.scores.player2 + 1),
           Ball.mk 400 300
             (Real.cos (Real.pi / 6 + rAngle * (Real.pi / 6)) * speed)
             (Real.sin (Real.pi / 6 + rAngle * (Real.pi / 6)) * speed) lt2)
        else if 800 < x1 then
          (Scores.mk (gs.scores.player1 + 1) gs.scores.player2,
           Ball.mk 400 300
             (Real.cos (Real.pi * 2 / 3 + rAngle * (Real.pi / 6)) * speed)
             (Real.sin (Real.pi * 2 / 3 + rAngle * (Real.pi / 6)) * speed) lt2)
        else (gs.scores, Ball.mk x1 y1 vx2 vy2 lt2)
      let winner2 :=
        if 5 ≤ sb.1.player1 ∨ 5 ≤ sb.1.player2 then
          some (if 5 ≤ sb.1.player1 then "player1" else "player2")
        else gs.winner
      { room with
        gameState := some
          { gs with
            ball := sb.2, scores := sb.1, winner := winner2
            timestamp := some now } }

/-! ### RoomService (the enhanced service, RoomService.ts) -/

/-- One `for (const player of ...) if (cond) player.setHost(false)` pass
over a list of references, as performed by ensureSingleHost. -/
def clearHostsBy (h : List Player) (refs : List Ref) (cond : Player → Bool) :
    List Player :=
  refs.foldl (fun h r => if cond (heapGet h r) then heapSetHost h r false else h) h

namespace RoomService

/-- The `Array.from(this.players.values()).find(p => p.name === playerName
&& p.id !== playerId)` duplicate-name scan used by createRoom and
performNormalJoin. -/
def findConflict (svc : RoomService) (playerName playerId : String) :
    Option Ref :=
  (svc.players.map (·.2)).find? fun r =>
    decide ((heapGet svc.heap r).name = playerName ∧
      (heapGet svc.heap r).id ≠ playerId)

/-- RoomService.ensureSingleHost: strips host status from every player in
the room's two member maps and from every globally registered player whose
`room` field names this room. -/
def ensureSingleHost (svc : RoomService) (roomName : String) : RoomService :=
  match mapLookup svc.rooms roomName with
  | none => svc
  | some room =>
    let h1 := clearHostsBy svc.heap (room.players.map (·.2)) (·.isHost)
    let h2 := clearHostsBy h1 (room.guests.map (·.2)) (·.isHost)
    let h3 := clearHostsBy h2 (svc.players.map (·.2))
      (fun p => p.room == roomName && p.isHost)
    { svc with heap := h3 }

/-- RoomService.validateRoomHostStatus: counts hosts over players ++ guests
and invokes ensureSingleHost when there is more than one (the zero-host
case is only logged). -/
def validateRoomHostStatus (svc : RoomService) (roomName : String) :
    RoomService :=
  match mapLookup svc.rooms roomName with
  | none => svc
  | some room =>
    let allPlayers :=
      ((room.players.map (·.2)) ++ (room.guests.map (·.2))).map
        (heapGet svc.heap)
    let hosts := allPlayers.filter (·.isHost)
    if 1 < hosts.length then ensureSingleHost svc roomName else svc

/-- RoomService.createRoom (the async variant with name-length validation
and the strict global name-uniqueness check).  The Redis metadata publish is
external I/O and has no effect on the service state. -/
def createRoom (svc : RoomService) (roomName password hostId hostName : String) :
    RoomService × Except Err Unit :=
  if 20 < roomName.length then
    (svc, .error (.thrown "El nombre de la sala no puede exceder 20 caracteres."))
  else if 20 < hostName.length then
    (svc, .error (.thrown "El nombre del jugador no puede exceder 20 caracteres."))
  else if mapHas svc.rooms roomName then
    (svc, .error (.thrown "Room already exists"))
  else if (svc.findConflict hostName hostId).isSome then
    (svc, .error (.thrown
      "El nombre de jugador ya está en uso. Por favor, elige otro nombre."))
  else
    let ref := svc.heap.length
    let host : Player := ⟨hostId, hostName, roomName, true, true⟩
    let room := (Room.new roomName password hostId hostName).addPlayer hostId ref
    ({ heap := svc.heap ++ [host]
       rooms := mapSet svc.rooms roomName room
       players := mapSet svc.players hostId ref }, .ok ())

/-- RoomService.performNormalJoin (the strict variant): validates the name
length, the room, the password, fails on any global name conflict, and adds
the joiner — as the sole host (after ensureSingleHost) when the display name
equals the room's hostName, as a guest otherwise. -/
def performNormalJoin (svc : RoomService)
    (roomName password playerId playerName : String) :
    RoomService × Except Err Unit :=
  if 20 < playerName.length then
    (svc, .error (.thrown "El nombre del jugador no puede exceder 20 caracteres."))
  else
    match mapLookup svc.rooms roomName with
    | none => (svc, .error (.thrown "Sala no encontrada"))
    | some room =>
      if room.password ≠ "" ∧ room.password ≠ password then
        (svc, .error (.thrown "Contraseña incorrecta"))
      else if (svc.findConflict playerName playerId).isSome then
        (svc, .error (.thrown
          "El nombre de jugador ya está en uso. Por favor, elige otro nombre."))
      else if room.hostName = playerName then
        let svc1 := svc.ensureSingleHost roomName
        let ref := svc1.heap.length
        let player : Player := ⟨playerId, playerName, roomName, true, true⟩
        ({ heap := svc1.heap ++ [player]
           rooms := mapSet svc1.rooms roomName (room.addPlayer playerId ref)
           players := mapSet svc1.players playerId ref }, .ok ())
      else
        let ref := svc.heap.length
        let player : Player := ⟨playerId, playerName, roomName, false, true⟩
        ({ heap := svc.heap ++ [player]
           rooms := mapSet svc.rooms roomName (room.addGuest playerId ref)
           players := mapSet svc.players playerId ref }, .ok ())

/-- RoomService.leaveRoom (the host-deletes-room variant): a leaving host
has their flag cleared, is removed from the room, and the whole room is
deleted; a leaving non-host is removed and the room's host assignment is
re-validated.  In both cases the player is dropped from the global map. -/
def leaveRoom (svc : RoomService) (playerId : String) : RoomService :=
  match mapLookup svc.players playerId with
  | none => svc
  | some ref =>
    let p := heapGet svc.heap ref
    if p.isHost then
      let h1 := heapSetHost svc.heap ref false
      let rooms1 :=
        match mapLookup svc.rooms p.room with
        | some room => mapSet svc.rooms p.room (room.removePlayer playerId)
        | none => svc.rooms
      { heap := h1
        rooms := mapDelete rooms1 p.room
        players := mapDelete svc.players playerId }
    else
      let svc1 :=
        match mapLookup svc.rooms p.room with
        | some room =>
          validateRoomHostStatus
            { svc with rooms := mapSet svc.rooms p.room (room.removePlayer playerId) }
            p.room
        | none => svc
      { svc1 with players := mapDelete svc1.players playerId }

/-- The `Array.from(this.players.values()).filter(p => p.room ===
roomName).find(p => p.name === room.hostName)` fallback scan of
RoomService.startGame, returning the reference of the player found. -/
def findHostByScan (svc : RoomService) (roomName hostName : String) :
    Option Ref :=
  (svc.players.map (·.2)).find? fun r =>
    decide ((heapGet svc.heap r).room = roomName ∧
      (heapGet svc.heap r).name = hostName)

/-- The requester-resolution block at the head of RoomService.startGame:
looks the requester up by session id, restoring host status (after
ensureSingleHost) when their display name matches the room's hostName; on a
lookup miss, falls back to the room + hostName scan, likewise restoring
host status.  Returns the (possibly mutated) service and the requester's
reference, or `none` when both lookups miss. -/
def resolveRequester (svc : RoomService) (roomName : String) (room : Room)
    (hostId : String) : Option (RoomService × Ref) :=
  match mapLookup svc.players hostId with
  | some ref =>
    let p := heapGet svc.heap ref
    if p.isHost = false ∧ p.name = room.hostName then
      let svc1 := svc.ensureSingleHost roomName
      some ({ svc1 with heap := heapSetHost svc1.heap ref true }, ref)
    else some (svc, ref)
  | none =>
    match svc.findHostByScan roomName room.hostName with
    | some ref =>
      let p := heapGet svc.heap ref
      if p.isHost = false then
        let svc1 := svc.ensureSingleHost roomName
        some ({ svc1 with heap := heapSetHost svc1.heap ref true }, ref)
      else some (svc, ref)
    | none => none

/-- RoomService.startGame (the enhanced variant): resolves the requester
(see resolveRequester), then authorizes, validates the selected players and
starts the match.  Host-status restoration mutates the state even when a
later check throws, exactly as in the source. -/
noncomputable def startGame (svc : RoomService) (roomName hostId : String)
    (selectedPlayerIds : List String) (r1 r2 : ℝ) (now : Nat) :
    RoomService × Except Err Unit :=
  match mapLookup svc.rooms roomName with
  | none => (svc, .error (.thrown "Room not found"))
  | some room =>
    match resolveRequester svc roomName room hostId with
    | none => (svc, .error (.thrown "Player not found - please rejoin the room"))
    | some (svc1, ref) =>
      let p := heapGet svc1.heap ref
      if p.isHost = false then
        (svc1, .error (.thrown "Unauthorized - Only the host can start the game"))
      else if p.room ≠ roomName then
        (svc1, .error (.thrown "Player is not in the specified room"))
      else
        let selectedPlayers :=
          (selectedPlayerIds.filterMap (mapLookup svc1.players)).map
            (heapGet svc1.heap)
        if selectedPlayers.length ≠ 2 then
          (svc1, .error (.thrown "Must select exactly 2 players"))
        else
          match selectedPlayers.find? fun q => decide (q.room ≠ roomName) with
          | some q =>
            (svc1, .error (.thrown
              ("Player " ++ q.name ++ " is not in room " ++ roomName)))
          | none =>
            let rooms2 := mapSet svc1.rooms roomName
              (room.startGame selectedPlayers r1 r2 now)
            ({ svc1 with rooms := rooms2 }, .ok ())

/-- RoomService.updateGame: requires an existing, active room; when the
client payload carries paddles it writes them through the non-null
assertion `room.gameState!`, which faults when gameState is null. -/
def updateGame (svc : RoomService) (roomName playerId : String)
    (gameData : GameUpdateData) : RoomService × Except Err Unit :=
  match mapLookup svc.rooms roomName with
  | none => (svc, .error (.thrown "Game not active"))
  | some room =>
    if room.isGameActive = false then (svc, .error (.thrown "Game not active"))
    else
      match gameData.paddles with
      | none => (svc, .ok ())
      | some pads =>
        match room.gameState with
        | none => (svc, .error .nullAssertion)
        | some gs =>
          let rooms2 := mapSet svc.rooms roomName
            { room with gameState := some { gs with paddles := pads } }
          ({ svc with rooms := rooms2 }, .ok ())

/-- RoomService.backToLobby: clears gameState and isGameActive. -/
def backToLobby (svc : RoomService) (roomName playerId : String) :
    RoomService × Except Err Unit :=
  match mapLookup svc.rooms roomName with
  | none => (svc, .error (.thrown "Room not found"))
  | some room =>
    match mapLookup svc.players playerId with
    | none => (svc, .error (.thrown "Player not found"))
    | some _ =>
      let rooms2 := mapSet svc.rooms roomName
        { room with gameState := none, isGameActive := false }
      ({ svc with rooms := rooms2 }, .ok ())

/-- RoomService.updateSelectedPlayers. -/
def updateSelectedPlayers (svc : RoomService) (roomName : String)
    (selectedPlayers : List String) : RoomService :=
  match mapLookup svc.rooms roomName with
  | none => svc
  | some room =>
    let rooms2 := mapSet svc.rooms roomName
      { room with selectedPlayers := selectedPlayers }
    { svc with rooms := rooms2 }

/-- RoomService.deleteRoom. -/
def deleteRoom (svc : RoomService) (roomName : String) : RoomService :=
  { svc with rooms := mapDelete svc.rooms roomName }

/-- RoomService.createRoomFromMetadata: returns the existing room untouched
when present; otherwise materializes a Room from the replicated metadata
and, when the metadata was active and carries a selectedPlayers field (any
present array, even empty, is truthy), restores isGameActive and
selectedPlayers — without any gameState. -/
def createRoomFromMetadata (svc : RoomService) (roomName : String)
    (metadata : RoomMetadata) : RoomService :=
  if mapHas svc.rooms roomName then svc
  else
    let room := Room.new roomName (metadata.password.getD "")
      metadata.hostId metadata.hostName
    let room2 :=
      if metadata.isGameActive ∧ metadata.selectedPlayers.isSome then
        { room with
          isGameActive := metadata.isGameActive
          selectedPlayers := metadata.selectedPlayers.getD [] }
      else room
    { svc with rooms := mapSet svc.rooms roomName room2 }

/-- The per-duplicate body of the second phase of
RoomService.forceCleanupPlayer (shared with the first phase, which runs the
same steps for the named player). -/
def cleanupOne (svc : RoomService) (id : String) (ref : Ref) : RoomService :=
  let p := heapGet svc.heap ref
  let roomName := p.room
  let isHostCleanup := p.isHost
  let svcA :=
    if isHostCleanup then
      ensureSingleHost { svc with heap := heapSetHost svc.heap ref false } roomName
    else svc
  let svcB := { svcA with players := mapDelete svcA.players id }
  match mapLookup svcB.rooms roomName with
  | none => svcB
  | some room =>
    let svcC :=
      { svcB with rooms := mapSet svcB.rooms roomName (room.removePlayer id) }
    if isHostCleanup then { svcC with rooms := mapDelete svcC.rooms roomName }
    else validateRoomHostStatus svcC roomName

/-- RoomService.forceCleanupPlayer: removes the named player (deleting the
room when they were host), then snapshots the remaining same-named entries
and removes each of them in turn with the same treatment. -/
def forceCleanupPlayer (svc : RoomService) (playerId playerName : String) :
    RoomService :=
  let svc1 :=
    match mapLookup svc.players playerId with
    | none => svc
    | some ref => cleanupOne svc playerId ref
  let dups := svc1.players.filter fun e =>
    decide ((heapGet svc1.heap e.2).name = playerName ∧ e.1 ≠ playerId)
  dups.foldl (fun s e => cleanupOne s e.1 e.2) svc1

end RoomService

/-! ### The basic service variant (the RoomService rendition whose
performNormalJoin performs the stale-name eviction pass) -/

namespace V1

/-- V1 RoomService.leaveRoom: removes the player from their room, deletes
the room when its `players` map becomes empty, and drops the player from
the global map.  It is also the eviction step of V1.performNormalJoin. -/
def leaveRoom (svc : RoomService) (playerId : String) : RoomService :=
  match mapLookup svc.players playerId with
  | none => svc
  | some ref =>
    let p := heapGet svc.heap ref
    match mapLookup svc.rooms p.room with
    | some room =>
      let room2 := room.removePlayer playerId
      let rooms1 := mapSet svc.rooms p.room room2
      let rooms2 :=
        if room2.players.length = 0 then mapDelete rooms1 p.room else rooms1
      { svc with rooms := rooms2, players := mapDelete svc.players playerId }
    | none => { svc with players := mapDelete svc.players playerId }

/-- The tail of V1 performNormalJoin after the conflict handling: creates
the Player, grants host status iff the display name equals the room's
recorded hostName, and inserts them into the room captured before the
eviction.  When the eviction deleted the room from the registry, the
source's `room` local still references the detached object, so the member
insertion is invisible to the registry — hence the re-lookup. -/
def finishJoin (svc : RoomService) (roomName hostName playerId playerName : String) :
    RoomService × Except Err Unit :=
  let isOriginalHost := hostName = playerName
  let ref := svc.heap.length
  let player : Player := ⟨playerId, playerName, roomName, isOriginalHost, true⟩
  let rooms2 :=
    match mapLookup svc.rooms roomName with
    | some cur =>
      mapSet svc.rooms roomName
        (if isOriginalHost then cur.addPlayer playerId ref
         else cur.addGuest playerId ref)
    | none => svc.rooms
  ({ heap := svc.heap ++ [player]
     rooms := rooms2
     players := mapSet svc.players playerId ref }, .ok ())

/-- V1 RoomService.performNormalJoin: on a global name conflict it evicts
the conflicting session via leaveRoom (the source's two branches of the
`room !== roomName` test perform the identical call), rechecks, and only
fails with the name-taken error when a conflict remains. -/
def performNormalJoin (svc : RoomService)
    (roomName password playerId playerName : String) :
    RoomService × Except Err Unit :=
  match mapLookup svc.rooms roomName with
  | none => (svc, .error (.thrown "Room not found"))
  | some room =>
    if room.password ≠ "" ∧ room.password ≠ password then
      (svc, .error (.thrown "Incorrect password"))
    else
      match svc.findConflict playerName playerId with
      | some cref =>
        let c := heapGet svc.heap cref
        let svc1 := leaveRoom svc c.id
        match svc1.findConflict playerName playerId with
        | some _ => (svc1, .error (.thrown "El nombre de jugador ya está en uso."))
        | none => finishJoin svc1 roomName room.hostName playerId playerName
      | none => finishJoin svc roomName room.hostName playerId playerName

end V1

/-! ### RoomController (RoomService.ts companion controller rendition) -/

namespace Controller

/-- RoomController.handleGameUpdate: resolves the room through the sender's
player record (silently returning when the sender is unknown), requires an
active room, and writes the paddles through `room.gameState!`. -/
def handleGameUpdate (svc : RoomService) (socketId : String)
    (data : GameUpdateData) : RoomService × Except Err Unit :=
  match mapLookup svc.players socketId with
  | none => (svc, .ok ())
  | some ref =>
    let p := heapGet svc.heap ref
    match mapLookup svc.rooms p.room with
    | none => (svc, .error (.thrown "Game not active"))
    | some room =>
      if room.isGameActive = false then
        (svc, .error (.thrown "Game not active"))
      else
        match data.paddles with
        | none => (svc, .ok ())
        | some pads =>
          match room.gameState with
          | none => (svc, .error .nullAssertion)
          | some gs =>
            let rooms2 := mapSet svc.rooms p.room
              { room with gameState := some { gs with paddles := pads } }
            ({ svc with rooms := rooms2 }, .ok ())

/-- The `if (room.isGameActive && room.gameState)` block of
handleDisconnect: when the disconnecting socket is one of the two match
participants, the other participant's id is written into
gameState.winner. -/
def awardWinOnDisconnect (svc : RoomService) (room : Room)
    (roomKey socketId : String) : RoomService :=
  match room.gameState with
  | some gs =>
    if room.isGameActive then
      if gs.players.any fun q => q.id == socketId then
        match gs.players.find? fun q => decide (q.id ≠ socketId) with
        | some other =>
          let rooms2 := mapSet svc.rooms roomKey
            { room with gameState := some { gs with winner := some other.id } }
          { svc with rooms := rooms2 }
        | none => svc
      else svc
    else svc
  | none => svc

/-- RoomController.handleDisconnect (the hostName-aware rendition): awards
the win to the remaining match participant, deletes the room when the
disconnecting player matches the room's hostName or hostId (without
touching the other members), otherwise runs leaveRoom, and finally runs
forceCleanupPlayer for the disconnected identity. -/
def handleDisconnect (svc : RoomService) (socketId : String) : RoomService :=
  match mapLookup svc.players socketId with
  | none => RoomService.leaveRoom svc socketId
  | some ref =>
    let p := heapGet svc.heap ref
    match mapLookup svc.rooms p.room with
    | none =>
      let svc1 := RoomService.leaveRoom svc socketId
      RoomService.forceCleanupPlayer svc1 p.id p.name
    | some room =>
      let svc1 := awardWinOnDisconnect svc room p.room socketId
      let isHostDisconnect := p.name = room.hostName ∨ p.id = room.hostId
      let svc2 :=
        if isHostDisconnect then RoomService.deleteRoom svc1 p.room
        else RoomService.leaveRoom svc1 socketId
      RoomService.forceCleanupPlayer svc2 p.id p.name

/-- RoomController.updateRoomState: the replicated-state reconciliation.
`localTimestamp` is `room.gameState?.timestamp || 0`; the update is applied
only when the remote timestamp is strictly newer AND the message originates
from a different server id, in which case the payload becomes the local
gameState (restamped) and the room is marked active. -/
def updateRoomState (svc : RoomService) (thisServerId roomName : String)
    (msg : StateMsg) : RoomService :=
  match mapLookup svc.rooms roomName with
  | none => svc
  | some room =>
    let localTimestamp :=
      match room.gameState with
      | some gs => gs.timestamp.getD 0
      | none => 0
    if localTimestamp < msg.timestamp ∨ room.gameState.isNone then
      if msg.serverId ≠ thisServerId ∧ localTimestamp < msg.timestamp then
        let rooms2 := mapSet svc.rooms roomName
          { room with
            gameState := some { msg.state with timestamp := some msg.timestamp }
            isGameActive := true }
        { svc with rooms := rooms2 }
      else svc
    else svc

end Controller

/-! ### Observers used by the verification statements -/

/-- Number of members (players ++ guests) of the named room whose shared
Player object currently has isHost = true. -/
def hostCount (svc : RoomService) (roomName : String) : Nat :=
  match mapLookup svc.rooms roomName with
  | none => 0
  | some room =>
    ((((room.players.map (·.2)) ++ (room.guests.map (·.2))).map
      (heapGet svc.heap)).filter (·.isHost)).length

/-- The `room.gameState?.timestamp || 0` value updateRoomState compares
against. -/
def localTimestampOf (svc : RoomService) (roomName : String) : Nat :=
  match mapLookup svc.rooms roomName with
  | none => 0
  | some room =>
    match room.gameState with
    | some gs => gs.timestamp.getD 0
    | none => 0

/-- The gameState ⇔ isGameActive coherence invariant over a rooms map. -/
def InvGS (rooms : List (String × Room)) : Prop :=
  ∀ rn room, mapLookup rooms rn = some room →
    (room.isGameActive = true ↔ room.gameState.isSome = true)

/-- Well-formedness of the heap model: every reference stored in the global
player map is in bounds (true of every state the embedded operations
build). -/
def ValidPlayerRefs (svc : RoomService) : Prop :=
  ∀ e ∈ svc.players, e.2 < svc.heap.length

/-- The global player-map entries conflicting with a join of `playerName`
by session `playerId` (the entry list whose first element findConflict
returns). -/
def conflictEntries (svc : RoomService) (playerName playerId : String) :
    List (String × Ref) :=
  svc.players.filter fun e =>
    decide ((heapGet svc.heap e.2).name = playerName ∧
      (heapGet svc.heap e.2).id ≠ playerId)

/-- Whether a service call finished without throwing. -/
def isOkE {ε α : Type} : Except ε α → Bool
  | .ok _ => true
  | .error _ => false

/-- A registry holding room "R" (host Alice) with TWO registered sessions
named "Carol" (c1 and c3) — the double-registration shape the basic
rendition's createRoom can produce, since it performs no name-uniqueness
check.  A third same-named join evicts only the first and still fails. -/
def svcTwoCarols : RoomService :=
  { heap := [⟨"a1", "Alice", "R", true, true⟩,
             ⟨"c1", "Carol", "R", false, true⟩,
             ⟨"c3", "Carol", "R", false, true⟩]
    rooms := [("R",
      { name := "R", password := "", hostName := "Alice", hostId := "a1"
        players := [("a1", 0)], guests := [("c1", 1), ("c3", 2)]
        gameState := none, isGameActive := false, selectedPlayers := [] })]
    players := [("a1", 0), ("c1", 1), ("c3", 2)] }

/-- The winner recorded in a room's gameState, if any. -/
def roomWinner (room : Room) : Option String :=
  match room.gameState with
  | some gs => gs.winner
  | none => none

/-! ### Concrete states used to instantiate the statements -/

/-- A freshly constructed service. -/
def emptyService : RoomService := ⟨[], [], []⟩

/-- Room "R" created by host Alice (session a1). -/
def svcAlice : RoomService :=
  (RoomService.createRoom emptyService "R" "" "a1" "Alice").1

/-- Room "R" hosted by Alice with guest Bob (session b1). -/
def svcAliceBob : RoomService :=
  (RoomService.performNormalJoin svcAlice "R" "" "b1" "Bob").1

/-- Room "R" hosted by Alice with guest Carol (session c1). -/
def svcAliceCarol : RoomService :=
  (RoomService.performNormalJoin svcAlice "R" "" "c1" "Carol").1

/-- Two rooms: "A" hosted by Alice (session a1) and "B" hosted by Bob
(session b1), after which Alice's session also joins room "B" as a guest. -/
def svcTwoRooms : RoomService :=
  (RoomService.performNormalJoin
    (RoomService.createRoom
      (RoomService.createRoom emptyService "A" "" "a1" "Alice").1
      "B" "" "b1" "Bob").1
    "B" "" "a1" "Alice").1

/-- svcTwoRooms after Alice's session (now a guest of room "B") invokes
startGame for room "A": the host-restoration path grants her object host
status before the member-room check throws. -/
noncomputable def svcTwoRoomsStarted : RoomService :=
  (RoomService.startGame svcTwoRooms "A" "a1" [] 0 0 0).1

/-- Replicated metadata describing an active match (hostName "A"). -/
def mdActive : RoomMetadata := ⟨none, "h", "A", true, some ["x", "y"]⟩

/-- A service that adopted room "R" from active replicated metadata. -/
def svcAdopted : RoomService :=
  RoomService.createRoomFromMetadata emptyService "R" mdActive

/-- An empty replicated game-state payload. -/
noncomputable def gsPayload : GameState :=
  ⟨[], ⟨0, 0⟩, ⟨0, 0, 0, 0, none⟩, ⟨0, 0⟩, none, none⟩

/-- A replicated state message stamped 5, originating from
"default-server" (the receiver's own id when SERVER_ID is unset). -/
noncomputable def msgSelf : StateMsg := ⟨5, "default-server", gsPayload⟩

/-- A room in the middle of an active match whose ball has just moved past
the left edge (x = -10), about to be scored by the physics tick. -/
noncomputable def roomBallOutLeft : Room :=
  { name := "R", password := "", hostName := "H", hostId := "h"
    players := [], guests := [], selectedPlayers := []
    gameState := some
      { players := [], scores := ⟨0, 0⟩
        ball := ⟨-10, 300, 0, 0, none⟩
        paddles := ⟨250, 250⟩
        winner := none, timestamp := some 0 }
    isGameActive := true }

/-- An active room whose ball rests at the field centre with zero velocity
and whose scores are `s`: a tick of this room exercises exactly the
winner-threshold check, and a client game update against it exercises
exactly the other winner-threshold check. -/
noncomputable def mkActiveRoom (s : Scores) : Room :=
  { name := "T", password := "", hostName := "H", hostId := "h"
    players := [], guests := [], selectedPlayers := []
    gameState := some
      { players := [], scores := s
        ball := ⟨400, 300, 0, 0, none⟩
        paddles := ⟨250, 250⟩
        winner := none, timestamp := some 0 }
    isGameActive := true }

/-- The server-side physics tick declares a winner on scores `s` (ball
stationary at centre, so the scores are unchanged by the tick). -/
def physicsSetsWinner (s : Scores) : Prop :=
  (roomWinner (Room.updateGamePhysics (mkActiveRoom s) 0 0 0 1)).isSome = true

/-- The client-driven Room.updateGame declares a winner on scores `s`. -/
def updateSetsWinner (s : Scores) : Prop :=
  (roomWinner (Room.updateGame (mkActiveRoom ⟨0, 0⟩)
    ⟨400, 300, 0, 0, none⟩ ⟨250, 250⟩ s 1)).isSome = true

/-! ### Lemmas about the Map and heap model -/

theorem mapLookup_cons {α : Type} (e : String × α) (m : List (String × α))
    (q : String) :
    mapLookup (e :: m) q = if e.1 = q then some e.2 else mapLookup m q := by
  by_cases h : e.1 = q
  · simp [mapLookup, List.find?_cons_of_pos, h]
  · simp [mapLookup, h]

theorem mapLookup_replace {α : Type} (m : List (String × α)) (k q : String)
    (v : α) :
    mapLookup (m.map fun e => if e.1 = k then (k, v) else e) q =
      if q = k then
        (if (m.any fun e => e.1 = k) = true then some v else none)
      else mapLookup m q := by
  induction m with
  | nil => by_cases h : q = k <;> simp [mapLookup, h]
  | cons e m ih =>
    have hcons : ((e :: m).any fun e => e.1 = k) =
        (decide (e.1 = k) || (m.any fun e => e.1 = k)) := by
      simp [List.any_cons]
    by_cases he : e.1 = k
    · simp only [List.map_cons, if_pos he]
      rw [mapLookup_cons, hcons]
      by_cases hq : q = k
      · rw [if_pos (show (k, v).1 = q from hq.symm), if_pos hq,
          if_pos (show (decide (e.1 = k) || (m.any fun e => e.1 = k)) = true by
            simp [he])]
      · rw [if_neg (show ¬ (k, v).1 = q from fun h => hq h.symm), ih,
          if_neg hq, if_neg hq, mapLookup_cons,
          if_neg (show ¬ e.1 = q from he ▸ fun h => hq h.symm)]
    · simp only [List.map_cons, if_neg he]
      rw [mapLookup_cons, hcons]
      by_cases hq : q = k
      · rw [if_neg (show ¬ e.1 = q from fun h => he (h.trans hq)), ih,
          if_pos hq, if_pos hq,
          show (decide (e.1 = k) || (m.any fun e => decide (e.1 = k)))
              = (m.any fun e => decide (e.1 = k)) from by
            rw [decide_eq_false he, Bool.false_or]]
      · by_cases heq : e.1 = q
        · rw [if_pos heq, if_neg hq, mapLookup_cons, if_pos heq]
        · rw [if_neg heq, ih, if_neg hq, if_neg hq, mapLookup_cons,
            if_neg heq]

theorem mapLookup_eq_none_of_not_has {α : Type} (m : List (String × α))
    (k : String) (h : ¬ (m.any fun e => e.1 = k) = true) :
    mapLookup m k = none := by
  unfold mapLookup
  rw [List.find?_eq_none.mpr]
  · rfl
  · intro x hx hpx
    exact h (List.any_eq_true.mpr ⟨x, hx, hpx⟩)

theorem mapLookup_set {α : Type} (m : List (String × α)) (k q : String)
    (v : α) :
    mapLookup (mapSet m k v) q = if q = k then some v else mapLookup m q := by
  unfold mapSet
  by_cases hany : (m.any fun e => e.1 = k) = true
  · rw [if_pos hany, mapLookup_replace]
    by_cases hq : q = k <;> simp [hq, hany]
  · rw [if_neg hany]
    unfold mapLookup
    rw [List.find?_append]
    by_cases hq : q = k
    · subst hq
      have h0 : mapLookup m q = none := mapLookup_eq_none_of_not_has m q hany
      unfold mapLookup at h0
      have h1 : m.find? (fun e => e.1 = q) = none := by
        rcases h : m.find? fun e => e.1 = q with _ | e
        · exact h
        · rw [h] at h0; simp at h0
      rw [h1]
      simp
    · have h2 : ([(k, v)].find? fun e => e.1 = q) = none := by
        simp [show ¬ (k = q) from fun h => hq h.symm]
      rw [h2]
      simp [hq]

theorem mapLookup_delete {α : Type} (m : List (String × α)) (k q : String) :
    mapLookup (mapDelete m k) q = if q = k then none else mapLookup m q := by
  induction m with
  | nil => by_cases hq : q = k <;> simp [mapDelete, mapLookup, hq]
  | cons e m ih =>
    unfold mapDelete at ih ⊢
    rw [List.filter_cons]
    by_cases hek : e.1 = k
    · rw [if_neg (by simp [hek])]
      rw [ih]
      by_cases hq : q = k
      · rw [if_pos hq, if_pos hq]
      · rw [if_neg hq, if_neg hq, mapLookup_cons,
          if_neg (show ¬ e.1 = q from hek ▸ fun h => hq h.symm)]
    · rw [if_pos (by simp [hek])]
      rw [mapLookup_cons, ih]
      by_cases hq : q = k
      · rw [if_pos hq, if_pos hq,
          if_neg (show ¬ e.1 = q from fun h => hek (h.trans hq))]
      · rw [if_neg hq, if_neg hq, mapLookup_cons]

theorem heapGet_heapSet_self (h : List Player) (r : Ref) (p : Player)
    (hr : r < h.length) : heapGet (heapSet h r p) r = p := by
  unfold heapGet heapSet
  rw [List.get?_set_eq_of_lt p hr]
  rfl

theorem heapGet_heapSet_ne (h : List Player) (r : Ref) (p : Player)
    (q : Ref) (hq : q ≠ r) : heapGet (heapSet h r p) q = heapGet h q := by
  unfold heapGet heapSet
  rw [List.get?_set_ne p h (Ne.symm hq)]

theorem length_heapSet (h : List Player) (r : Ref) (p : Player) :
    (heapSet h r p).length = h.length := List.length_set h r p

/-- The immutable part of a Player object: everything except `isHost`. -/
def playerCore (p : Player) : String × String × String × Bool :=
  (p.id, p.name, p.room, p.isActive)

theorem playerCore_setHost (p : Player) (b : Bool) :
    playerCore (p.setHost b) = playerCore p := rfl

theorem heapGet_heapSetHost_core (h : List Player) (r : Ref) (b : Bool)
    (q : Ref) :
    playerCore (heapGet (heapSetHost h r b) q) = playerCore (heapGet h q) := by
  unfold heapSetHost
  by_cases hq : q = r
  · subst hq
    by_cases hr : q < h.length
    · rw [heapGet_heapSet_self _ _ _ hr, playerCore_setHost]
    · unfold heapSet
      rw [List.set_eq_of_length_le (Nat.le_of_not_lt hr)]
  · rw [heapGet_heapSet_ne _ _ _ _ hq]

theorem length_heapSetHost (h : List Player) (r : Ref) (b : Bool) :
    (heapSetHost h r b).length = h.length := List.length_set _ _ _

theorem heapGet_heapSetHost_false (h : List Player) (r q : Ref)
    (hq : (heapGet h q).isHost = false) :
    (heapGet (heapSetHost h r false) q).isHost = false := by
  unfold heapSetHost
  by_cases hqr : q = r
  · subst hqr
    by_cases hr : q < h.length
    · rw [heapGet_heapSet_self _ _ _ hr]; rfl
    · unfold heapSet
      rw [List.set_eq_of_length_le (Nat.le_of_not_lt hr)]
      exact hq
  · rw [heapGet_heapSet_ne _ _ _ _ hqr]; exact hq

theorem heapGet_heapSetHost_self_false (h : List Player) (r : Ref) :
    (heapGet (heapSetHost h r false) r).isHost = false := by
  unfold heapSetHost
  by_cases hr : r < h.length
  · rw [heapGet_heapSet_self _ _ _ hr]; rfl
  · unfold heapSet
    rw [List.set_eq_of_length_le (Nat.le_of_not_lt hr)]
    by_cases hh : (heapGet h r).isHost
    · exfalso
      unfold heapGet at hh
      rw [List.get?_eq_none.mpr (Nat.le_of_not_lt hr)] at hh
      simp [Player.setHost] at hh
    · simpa using hh

theorem clearHostsBy_core (h : List Player) (refs : List Ref)
    (cond : Player → Bool) (q : Ref) :
    playerCore (heapGet (clearHostsBy h refs cond) q) =
      playerCore (heapGet h q) := by
  induction refs generalizing h with
  | nil => rfl
  | cons r refs ih =>
    unfold clearHostsBy at ih ⊢
    rw [List.foldl_cons]
    by_cases hc : cond (heapGet h r) = true
    · rw [if_pos hc, ih, heapGet_heapSetHost_core]
    · rw [if_neg hc, ih]

theorem clearHostsBy_length (h : List Player) (refs : List Ref)
    (cond : Player → Bool) :
    (clearHostsBy h refs cond).length = h.length := by
  induction refs generalizing h with
  | nil => rfl
  | cons r refs ih =>
    unfold clearHostsBy at ih ⊢
    rw [List.foldl_cons]
    by_cases hc : cond (heapGet h r) = true
    · rw [if_pos hc, ih, length_heapSetHost]
    · rw [if_neg hc, ih]

theorem clearHostsBy_false_pres (h : List Player) (refs : List Ref)
    (cond : Player → Bool) (q : Ref)
    (hq : (heapGet h q).isHost = false) :
    (heapGet (clearHostsBy h refs cond) q).isHost = false := by
  induction refs generalizing h with
  | nil => exact hq
  | cons r refs ih =>
    unfold clearHostsBy at ih ⊢
    rw [List.foldl_cons]
    by_cases hc : cond (heapGet h r) = true
    · rw [if_pos hc]
      exact ih _ (heapGet_heapSetHost_false _ _ _ hq)
    · rw [if_neg hc]
      exact ih _ hq

theorem clearHostsBy_mem (h : List Player) (refs : List Ref) (q : Ref)
    (hq : q ∈ refs) :
    (heapGet (clearHostsBy h refs (·.isHost)) q).isHost = false := by
  induction refs generalizing h with
  | nil => cases hq
  | cons r refs ih =>
    unfold clearHostsBy at ih ⊢
    rw [List.foldl_cons]
    rcases List.mem_cons.mp hq with hqr | hqm
    · subst hqr
      by_cases hc : (heapGet h q).isHost = true
      · rw [if_pos hc]
        exact clearHostsBy_false_pres _ _ _ _ (heapGet_heapSetHost_self_false _ _)
      · rw [if_neg hc]
        exact clearHostsBy_false_pres _ _ _ _ (by simpa using hc)
    · by_cases hc : (heapGet h r).isHost = true
      · rw [if_pos hc]
        exact ih _ hqm
      · rw [if_neg hc]
        exact ih _ hqm

theorem ensureSingleHost_rooms (svc : RoomService) (rn : String) :
    (svc.ensureSingleHost rn).rooms = svc.rooms := by
  unfold RoomService.ensureSingleHost
  rcases mapLookup svc.rooms rn with _ | room <;> rfl

theorem ensureSingleHost_players (svc : RoomService) (rn : String) :
    (svc.ensureSingleHost rn).players = svc.players := by
  unfold RoomService.ensureSingleHost
  rcases mapLookup svc.rooms rn with _ | room <;> rfl

theorem ensureSingleHost_core (svc : RoomService) (rn : String) (q : Ref) :
    playerCore (heapGet (svc.ensureSingleHost rn).heap q) =
      playerCore (heapGet svc.heap q) := by
  unfold RoomService.ensureSingleHost
  rcases mapLookup svc.rooms rn with _ | room
  · rfl
  · simp only
    rw [clearHostsBy_core, clearHostsBy_core, clearHostsBy_core]

theorem ensureSingleHost_heap_length (svc : RoomService) (rn : String) :
    (svc.ensureSingleHost rn).heap.length = svc.heap.length := by
  unfold RoomService.ensureSingleHost
  rcases mapLookup svc.rooms rn with _ | room
  · rfl
  · simp only
    rw [clearHostsBy_length, clearHostsBy_length, clearHostsBy_length]

theorem hostCount_eq_zero_iff (svc : RoomService) (rn : String) (room : Room)
    (h : mapLookup svc.rooms rn = some room) :
    hostCount svc rn = 0 ↔
      ∀ r ∈ (room.players.map (·.2)) ++ (room.guests.map (·.2)),
        (heapGet svc.heap r).isHost = false := by
  unfold hostCount
  rw [h]
  simp only [List.length_eq_zero, List.filter_eq_nil_iff, List.mem_map]
  constructor
  · intro hall r hr
    have := hall (heapGet svc.heap r) ⟨r, hr, rfl⟩
    simpa using this
  · rintro hall p ⟨r, hr, rfl⟩
    simp [hall r hr]

theorem hostCount_ensureSingleHost (svc : RoomService) (rn : String)
    (room : Room) (h : mapLookup svc.rooms rn = some room) :
    hostCount (svc.ensureSingleHost rn) rn = 0 := by
  have hrooms := ensureSingleHost_rooms svc rn
  rw [hostCount_eq_zero_iff _ _ room (by rw [hrooms]; exact h)]
  intro r hr
  unfold RoomService.ensureSingleHost
  rw [h]
  simp only
  rcases List.mem_append.mp hr with hp | hg
  · exact clearHostsBy_false_pres _ _ _ _
      (clearHostsBy_false_pres _ _ _ _ (clearHostsBy_mem _ _ _ hp))
  · exact clearHostsBy_false_pres _ _ _ _ (clearHostsBy_mem _ _ _ hg)

theorem validate_rooms (svc : RoomService) (rn : String) :
    (RoomService.validateRoomHostStatus svc rn).rooms = svc.rooms := by
  unfold RoomService.validateRoomHostStatus
  rcases mapLookup svc.rooms rn with _ | room
  · rfl
  · simp only
    split
    · rw [ensureSingleHost_rooms]
    · rfl

theorem validate_players (svc : RoomService) (rn : String) :
    (RoomService.validateRoomHostStatus svc rn).players = svc.players := by
  unfold RoomService.validateRoomHostStatus
  rcases mapLookup svc.rooms rn with _ | room
  · rfl
  · simp only
    split
    · rw [ensureSingleHost_players]
    · rfl

theorem hostCount_validate_le_one (svc : RoomService) (rn : String) :
    hostCount (RoomService.validateRoomHostStatus svc rn) rn ≤ 1 := by
  unfold RoomService.validateRoomHostStatus
  rcases h : mapLookup svc.rooms rn with _ | room
  · unfold hostCount
    rw [h]
    exact Nat.zero_le 1
  · simp only
    by_cases hlen :
        1 < (((room.players.map (·.2)) ++ (room.guests.map (·.2))).map
          (heapGet svc.heap) |>.filter (·.isHost)).length
    · rw [if_pos hlen]
      rw [hostCount_ensureSingleHost svc rn room h]
      exact Nat.zero_le 1
    · rw [if_neg hlen]
      unfold hostCount
      rw [h]
      exact Nat.le_of_not_lt hlen

/-! ### Preservation of the gameState ⇔ isGameActive invariant -/

theorem invGS_set (m : List (String × Room)) (k : String) (room : Room)
    (hm : InvGS m)
    (hroom : room.isGameActive = true ↔ room.gameState.isSome = true) :
    InvGS (mapSet m k room) := by
  intro rn r h
  rw [mapLookup_set] at h
  by_cases hrn : rn = k
  · rw [if_pos hrn] at h
    cases h
    exact hroom
  · rw [if_neg hrn] at h
    exact hm rn r h

theorem invGS_delete (m : List (String × Room)) (k : String)
    (hm : InvGS m) : InvGS (mapDelete m k) := by
  intro rn r h
  rw [mapLookup_delete] at h
  by_cases hrn : rn = k
  · rw [if_pos hrn] at h
    cases h
  · rw [if_neg hrn] at h
    exact hm rn r h

theorem foldl_preserves {σ β : Type} (P : σ → Prop) (f : σ → β → σ)
    (l : List β) (hstep : ∀ s x, P s → P (f s x)) :
    ∀ s, P s → P (l.foldl f s) := by
  induction l with
  | nil => intro s hs; exact hs
  | cons x l ih =>
    intro s hs
    rw [List.foldl_cons]
    exact ih _ (hstep s x hs)

theorem invGS_createRoom (svc : RoomService) (rn pw hid hn : String)
    (hinv : InvGS svc.rooms) :
    InvGS (svc.createRoom rn pw hid hn).1.rooms := by
  unfold RoomService.createRoom
  split_ifs with h1 h2 h3 h4
  · exact hinv
  · exact hinv
  · exact hinv
  · exact hinv
  · exact invGS_set _ _ _ hinv (by simp [Room.new, Room.addPlayer])

theorem invGS_performNormalJoin (svc : RoomService) (rn pw pid pn : String)
    (hinv : InvGS svc.rooms) :
    InvGS (svc.performNormalJoin rn pw pid pn).1.rooms := by
  unfold RoomService.performNormalJoin
  by_cases h1 : 20 < pn.length
  · rw [if_pos h1]
    exact hinv
  · rw [if_neg h1]
    split
    · exact hinv
    · rename_i room hroom
      by_cases h2 : room.password ≠ "" ∧ room.password ≠ pw
      · rw [if_pos h2]
        exact hinv
      · rw [if_neg h2]
        by_cases h3 : (svc.findConflict pn pid).isSome = true
        · rw [if_pos h3]
          exact hinv
        · rw [if_neg h3]
          by_cases h4 : room.hostName = pn
          · rw [if_pos h4]
            simp only [ensureSingleHost_rooms]
            exact invGS_set _ _ _ hinv
              (by simpa [Room.addPlayer] using hinv rn room hroom)
          · rw [if_neg h4]
            exact invGS_set _ _ _ hinv
              (by simpa [Room.addGuest] using hinv rn room hroom)

theorem invGS_leaveRoom (svc : RoomService) (pid : String)
    (hinv : InvGS svc.rooms) :
    InvGS (svc.leaveRoom pid).rooms := by
  unfold RoomService.leaveRoom
  split
  · exact hinv
  · rename_i ref href
    dsimp only
    split_ifs with hhost
    · apply invGS_delete
      split
      · rename_i room hroom
        exact invGS_set _ _ _ hinv
          (by simpa [Room.removePlayer] using hinv _ room hroom)
      · exact hinv
    · split
      · rename_i room hroom
        rw [validate_rooms]
        exact invGS_set _ _ _ hinv
          (by simpa [Room.removePlayer] using hinv _ room hroom)
      · exact hinv

theorem resolveRequester_rooms (svc : RoomService) (rn : String)
    (room : Room) (hid : String) (s1 : RoomService) (r : Ref)
    (h : RoomService.resolveRequester svc rn room hid = some (s1, r)) :
    s1.rooms = svc.rooms := by
  unfold RoomService.resolveRequester at h
  revert h
  split
  · rename_i ref0 href0
    dsimp only
    split_ifs with hc
    · intro h
      cases h
      simp [ensureSingleHost_rooms]
    · intro h
      cases h
      rfl
  · split
    · rename_i ref0 href0
      dsimp only
      split_ifs with hc
      · intro h
        cases h
        simp [ensureSingleHost_rooms]
      · intro h
        cases h
        rfl
    · intro h
      cases h

theorem resolveRequester_players (svc : RoomService) (rn : String)
    (room : Room) (hid : String) (s1 : RoomService) (r : Ref)
    (h : RoomService.resolveRequester svc rn room hid = some (s1, r)) :
    s1.players = svc.players := by
  unfold RoomService.resolveRequester at h
  revert h
  split
  · rename_i ref0 href0
    dsimp only
    split_ifs with hc
    · intro h
      cases h
      simp [ensureSingleHost_players]
    · intro h
      cases h
      rfl
  · split
    · rename_i ref0 href0
      dsimp only
      split_ifs with hc
      · intro h
        cases h
        simp [ensureSingleHost_players]
      · intro h
        cases h
        rfl
    · intro h
      cases h

theorem invGS_startGame (svc : RoomService) (rn hid : String)
    (ids : List String) (r1 r2 : ℝ) (now : Nat)
    (hinv : InvGS svc.rooms) :
    InvGS (svc.startGame rn hid ids r1 r2 now).1.rooms := by
  unfold RoomService.startGame
  split
  · exact hinv
  · rename_i room hroom
    split
    · exact hinv
    · rename_i svc1 ref hres
      have hrooms1 : svc1.rooms = svc.rooms :=
        resolveRequester_rooms _ _ _ _ _ _ hres
      dsimp only
      split_ifs with hu hr hc
      · simpa [hrooms1] using hinv
      · simpa [hrooms1] using hinv
      · simpa [hrooms1] using hinv
      · split
        · simpa [hrooms1] using hinv
        · simp only [hrooms1]
          exact invGS_set _ _ _ hinv (by simp [Room.startGame])

theorem invGS_updateGame (svc : RoomService) (rn pid : String)
    (gd : GameUpdateData) (hinv : InvGS svc.rooms) :
    InvGS (svc.updateGame rn pid gd).1.rooms := by
  unfold RoomService.updateGame
  split
  · exact hinv
  · rename_i room hroom
    split_ifs with hact
    · exact hinv
    · split
      · exact hinv
      · split
        · exact hinv
        · rename_i pads _ gs hgs
          apply invGS_set _ _ _ hinv
          have := hinv rn room hroom
          simp only [hgs] at this ⊢
          simpa using this

theorem invGS_backToLobby (svc : RoomService) (rn pid : String)
    (hinv : InvGS svc.rooms) :
    InvGS (svc.backToLobby rn pid).1.rooms := by
  unfold RoomService.backToLobby
  split
  · exact hinv
  · split
    · exact hinv
    · exact invGS_set _ _ _ hinv (by simp)

theorem invGS_updateSelectedPlayers (svc : RoomService) (rn : String)
    (sel : List String) (hinv : InvGS svc.rooms) :
    InvGS (svc.updateSelectedPlayers rn sel).rooms := by
  unfold RoomService.updateSelectedPlayers
  split
  · exact hinv
  · rename_i room hroom
    exact invGS_set _ _ _ hinv (by simpa using hinv rn room hroom)

theorem invGS_deleteRoom (svc : RoomService) (rn : String)
    (hinv : InvGS svc.rooms) : InvGS (svc.deleteRoom rn).rooms :=
  invGS_delete _ _ hinv

theorem invGS_cleanupOne (svc : RoomService) (id : String) (ref : Ref)
    (hinv : InvGS svc.rooms) :
    InvGS (RoomService.cleanupOne svc id ref).rooms := by
  unfold RoomService.cleanupOne
  dsimp only
  have hA : InvGS (if (heapGet svc.heap ref).isHost = true then
      RoomService.ensureSingleHost
        { svc with heap := heapSetHost svc.heap ref false }
        (heapGet svc.heap ref).room
      else svc).rooms := by
    split_ifs with hh
    · rw [ensureSingleHost_rooms]
      exact hinv
    · exact hinv
  split
  · exact hA
  · rename_i room hroom
    split_ifs with hh
    · rw [if_pos hh] at hA hroom
      apply invGS_delete
      exact invGS_set _ _ _ hA
        (by simpa [Room.removePlayer] using hA _ room hroom)
    · rw [if_neg hh] at hA hroom
      rw [validate_rooms]
      exact invGS_set _ _ _ hA
        (by simpa [Room.removePlayer] using hA _ room hroom)

theorem invGS_forceCleanup (svc : RoomService) (pid pn : String)
    (hinv : InvGS svc.rooms) :
    InvGS (svc.forceCleanupPlayer pid pn).rooms := by
  unfold RoomService.forceCleanupPlayer
  have h1 : InvGS (match mapLookup svc.players pid with
      | none => svc
      | some ref => RoomService.cleanupOne svc pid ref).rooms := by
    split
    · exact hinv
    · exact invGS_cleanupOne _ _ _ hinv
  exact foldl_preserves (fun s : RoomService => InvGS s.rooms) _ _
    (fun s x hs => invGS_cleanupOne s x.1 x.2 hs) _ h1

theorem invGS_createRoomFromMetadata (svc : RoomService) (rn : String)
    (md : RoomMetadata) (hinv : InvGS svc.rooms)
    (hmd : ¬ (md.isGameActive = true ∧ md.selectedPlayers.isSome = true)) :
    InvGS (svc.createRoomFromMetadata rn md).rooms := by
  unfold RoomService.createRoomFromMetadata
  by_cases h1 : mapHas svc.rooms rn = true
  · rw [if_pos h1]
    exact hinv
  · rw [if_neg h1]
    dsimp only
    rw [if_neg hmd]
    exact invGS_set _ _ _ hinv (by simp [Room.new])

theorem invGS_updateRoomState (svc : RoomService) (sid rn : String)
    (msg : StateMsg) (hinv : InvGS svc.rooms) :
    InvGS (Controller.updateRoomState svc sid rn msg).rooms := by
  unfold Controller.updateRoomState
  split
  · exact hinv
  · rename_i room hroom
    dsimp only
    split_ifs with h1 h2
    · exact invGS_set _ _ _ hinv (by simp)
    · exact hinv
    · exact hinv

theorem invGS_handleGameUpdate (svc : RoomService) (sid : String)
    (gd : GameUpdateData) (hinv : InvGS svc.rooms) :
    InvGS (Controller.handleGameUpdate svc sid gd).1.rooms := by
  unfold Controller.handleGameUpdate
  split
  · exact hinv
  · rename_i ref href
    dsimp only
    split
    · exact hinv
    · rename_i room hroom
      split_ifs with hact
      · exact hinv
      · split
        · exact hinv
        · split
          · exact hinv
          · rename_i pads _ gs hgs
            apply invGS_set _ _ _ hinv
            have := hinv _ room hroom
            simp only [hgs] at this ⊢
            simpa using this

theorem invGS_awardWin (svc : RoomService) (room : Room)
    (rk sid : String) (hinv : InvGS svc.rooms)
    (hroom : mapLookup svc.rooms rk = some room) :
    InvGS (Controller.awardWinOnDisconnect svc room rk sid).rooms := by
  unfold Controller.awardWinOnDisconnect
  split
  · rename_i gs hgs
    split_ifs with ha hb
    · split
      · apply invGS_set _ _ _ hinv
        have := hinv _ room hroom
        simp only [hgs] at this ⊢
        simpa using this
      · exact hinv
    · exact hinv
    · exact hinv
  · exact hinv

theorem invGS_handleDisconnect (svc : RoomService) (sid : String)
    (hinv : InvGS svc.rooms) :
    InvGS (Controller.handleDisconnect svc sid).rooms := by
  unfold Controller.handleDisconnect
  split
  · exact invGS_leaveRoom _ _ hinv
  · rename_i ref href
    dsimp only
    split
    · exact invGS_forceCleanup _ _ _ (invGS_leaveRoom _ _ hinv)
    · rename_i room hroom
      apply invGS_forceCleanup
      have hwin : InvGS (Controller.awardWinOnDisconnect svc room
          (heapGet svc.heap ref).room sid).rooms :=
        invGS_awardWin _ _ _ _ hinv hroom
      split_ifs with hh
      · exact invGS_delete _ _ hwin
      · exact invGS_leaveRoom _ _ hwin

/-! ### Claim C3 -/

/-- C3: the claim says every coordination-service operation preserves the
at-most-one-host-per-room invariant.  The code violates it: starting from
rooms "A" (host Alice) and "B" (host Bob), after Alice's session joins room
"B" as a guest, a startGame request for room "A" from that session runs the
host-restoration path — ensureSingleHost("A") followed by
setHost(true) on Alice's object, which now lives in room "B" — before the
member-room check throws, leaving room "B" with TWO members whose
isHost is true. -/
theorem C3_startGame_two_hosts :
    hostCount svcTwoRooms "B" = 1 ∧ hostCount svcTwoRoomsStarted "B" = 2 := by
  constructor
  · decide
  · decide

/-! ### Claim C4 -/

/-- C4 counterexample: materializing a room from replicated metadata with
isGameActive = true and a present selectedPlayers list yields a room with
isGameActive = true and no gameState, so the claimed equivalence
isGameActive ⇔ gameState-present fails after adoption. -/
theorem C4_counterexample :
    (mapLookup svcAdopted.rooms "R").map Room.isGameActive = some true ∧
    (mapLookup svcAdopted.rooms "R").map (fun r => r.gameState.isSome) =
      some false := by
  constructor
  · decide
  · decide

/-! ### Claim C5 -/

/-- C5 counterexample: Alice hosts room "R" with guest Bob; Alice's leave
deletes the room but Bob remains registered in the global player map, so
the claimed "evicts all of its members from the registry" is false. -/
theorem C5_counterexample :
    (heapGet svcAliceBob.heap
      ((mapLookup svcAliceBob.players "a1").getD 0)).isHost = true ∧
    (mapLookup (RoomService.leaveRoom svcAliceBob "a1").rooms "R").isNone
      = true ∧
    (mapLookup (RoomService.leaveRoom svcAliceBob "a1").players "b1").isSome
      = true := by
  refine ⟨by decide, by decide, by decide⟩

/-! ### Claim C1 -/

/-- C1 counterexample: a replicated state message whose timestamp (5) is
strictly greater than the local timestamp (0, no gameState held) is NOT
applied when it carries the receiver's own server id, so "applies iff the
timestamp is strictly greater" is false as stated. -/
theorem C1_counterexample :
    0 < msgSelf.timestamp ∧ localTimestampOf svcAlice "R" = 0 ∧
    Controller.updateRoomState svcAlice "default-server" "R" msgSelf
      = svcAlice := by
  refine ⟨by decide, by decide, rfl⟩

/-! ### Claim C6 -/

/-- C6 counterexample: Carol's first session c1 is active (isActive =
true, never disconnected), yet a second join under the name "Carol" from
session c2 evicts it and succeeds; the claim's "succeeds exactly when the
first session was stale" is false — the eviction pass never checks
staleness. -/
theorem C6_counterexample :
    (heapGet svcAliceCarol.heap
      ((mapLookup svcAliceCarol.players "c1").getD 0)).name = "Carol" ∧
    (heapGet svcAliceCarol.heap
      ((mapLookup svcAliceCarol.players "c1").getD 0)).isActive = true ∧
    isOkE (V1.performNormalJoin svcAliceCarol "R" "" "c2" "Carol").2 = true ∧
    mapLookup (V1.performNormalJoin svcAliceCarol "R" "" "c2" "Carol").1.players
      "c1" = none := by
  refine ⟨by decide, by decide, by decide, ?_⟩
  decide

/-! ### Claim C10 -/

/-- C10: under the precondition isGameActive ⇒ gameState present, the
non-null assertion inside updateGame never faults; without it the fault is
reachable — a room adopted from active metadata has isGameActive = true and
no gameState, and a paddle update against it hits the null dereference. -/
theorem C10_updateGame_nullAssertion :
    (∀ svc rn pid gd,
      (∀ r, mapLookup svc.rooms rn = some r → r.isGameActive = true →
        r.gameState.isSome = true) →
      (RoomService.updateGame svc rn pid gd).2 ≠ .error .nullAssertion) ∧
    (RoomService.updateGame svcAdopted "R" "p"
      ⟨none, some ⟨1, 2⟩, none⟩).2 = .error .nullAssertion := by
  constructor
  · intro svc rn pid gd hpre
    unfold RoomService.updateGame
    split
    · simp
    · rename_i room hroom
      split_ifs with hact
      · simp
      · split
        · simp
        · split
          · rename_i pads hpads gs hgs
            have := hpre room hroom (by simpa using hact)
            rw [hgs] at this
            simp at this
          · simp
  · rfl

/-- C10 witness: the guarded half applied at the empty service. -/
theorem C10_witness :
    (RoomService.updateGame emptyService "R" "p" ⟨none, none, none⟩).2
      ≠ .error .nullAssertion :=
  C10_updateGame_nullAssertion.1 emptyService "R" "p" ⟨none, none, none⟩
    (by intro r h; simp [emptyService, mapLookup] at h)

theorem invGS_empty : InvGS emptyService.rooms := by
  intro rn r h
  simp [emptyService, mapLookup] at h

/-- C4 amended: the gameState ⇔ isGameActive equivalence is preserved by
every embedded operation EXCEPT materializing a room from replicated
metadata, which preserves it only when the metadata is not an active-match
record; an active metadata record produces isGameActive = true with no
gameState (see the counterexample). -/
theorem C4_invariant_preserved_except_adoption :
    (∀ svc rn pw hid hn, InvGS svc.rooms →
      InvGS (RoomService.createRoom svc rn pw hid hn).1.rooms) ∧
    (∀ svc rn pw pid pn, InvGS svc.rooms →
      InvGS (RoomService.performNormalJoin svc rn pw pid pn).1.rooms) ∧
    (∀ svc pid, InvGS svc.rooms →
      InvGS (RoomService.leaveRoom svc pid).rooms) ∧
    (∀ svc rn hid ids (r1 r2 : ℝ) (now : Nat), InvGS svc.rooms →
      InvGS (RoomService.startGame svc rn hid ids r1 r2 now).1.rooms) ∧
    (∀ svc rn pid gd, InvGS svc.rooms →
      InvGS (RoomService.updateGame svc rn pid gd).1.rooms) ∧
    (∀ svc rn pid, InvGS svc.rooms →
      InvGS (RoomService.backToLobby svc rn pid).1.rooms) ∧
    (∀ svc rn sel, InvGS svc.rooms →
      InvGS (RoomService.updateSelectedPlayers svc rn sel).rooms) ∧
    (∀ svc pid pn, InvGS svc.rooms →
      InvGS (RoomService.forceCleanupPlayer svc pid pn).rooms) ∧
    (∀ svc sid, InvGS svc.rooms →
      InvGS (Controller.handleDisconnect svc sid).rooms) ∧
    (∀ svc sid gd, InvGS svc.rooms →
      InvGS (Controller.handleGameUpdate svc sid gd).1.rooms) ∧
    (∀ svc tsid rn msg, InvGS svc.rooms →
      InvGS (Controller.updateRoomState svc tsid rn msg).rooms) ∧
    (∀ svc rn md, InvGS svc.rooms →
      ¬ (md.isGameActive = true ∧ md.selectedPlayers.isSome = true) →
      InvGS (RoomService.createRoomFromMetadata svc rn md).rooms) :=
  ⟨invGS_createRoom, invGS_performNormalJoin, invGS_leaveRoom,
    invGS_startGame, invGS_updateGame, invGS_backToLobby,
    invGS_updateSelectedPlayers, invGS_forceCleanup, invGS_handleDisconnect,
    invGS_handleGameUpdate, invGS_updateRoomState,
    invGS_createRoomFromMetadata⟩

/-- C4 witness: the preservation statement applied along the concrete
Alice/Bob history. -/
theorem C4_witness :
    InvGS svcAliceBob.rooms ∧
    InvGS (RoomService.leaveRoom svcAliceBob "a1").rooms := by
  have h1 : InvGS svcAlice.rooms :=
    C4_invariant_preserved_except_adoption.1 emptyService "R" "" "a1" "Alice"
      invGS_empty
  have h2 : InvGS svcAliceBob.rooms :=
    C4_invariant_preserved_except_adoption.2.1 svcAlice "R" "" "b1" "Bob" h1
  exact ⟨h2, C4_invariant_preserved_except_adoption.2.2.1 svcAliceBob "a1" h2⟩

/-- C5 amended: a leaving host has the room deleted and is removed from the
registry, but the other members REMAIN in the global player map (their
entries are untouched); a leaving non-host is removed alone, the room entry
merely loses that member, and the re-validation leaves the room with at
most one host.  The disconnect path behaves the same, shown on the concrete
Alice/Bob room. -/
theorem C5_leaveRoom_behavior :
    (∀ svc pid ref, mapLookup svc.players pid = some ref →
      (((heapGet svc.heap ref).isHost = true →
        (mapLookup (RoomService.leaveRoom svc pid).rooms
          (heapGet svc.heap ref).room).isNone = true ∧
        mapLookup (RoomService.leaveRoom svc pid).players pid = none ∧
        (∀ q, q ≠ pid → mapLookup (RoomService.leaveRoom svc pid).players q =
          mapLookup svc.players q)) ∧
      ((heapGet svc.heap ref).isHost = false →
        mapLookup (RoomService.leaveRoom svc pid).players pid = none ∧
        (∀ q, q ≠ pid → mapLookup (RoomService.leaveRoom svc pid).players q =
          mapLookup svc.players q) ∧
        (∀ room, mapLookup svc.rooms (heapGet svc.heap ref).room = some room →
          mapLookup (RoomService.leaveRoom svc pid).rooms
            (heapGet svc.heap ref).room = some (room.removePlayer pid)) ∧
        hostCount (RoomService.leaveRoom svc pid)
          (heapGet svc.heap ref).room ≤ 1))) ∧
    ((mapLookup (Controller.handleDisconnect svcAliceBob "a1").rooms
      "R").isNone = true ∧
     (mapLookup (Controller.handleDisconnect svcAliceBob "a1").players
      "b1").isSome = true) := by
  constructor
  · intro svc pid ref href
    unfold RoomService.leaveRoom
    rw [href]
    dsimp only
    by_cases hhost : (heapGet svc.heap ref).isHost = true
    · rw [if_pos hhost]
      constructor
      · intro _
        refine ⟨?_, ?_, ?_⟩
        · rw [mapLookup_delete, if_pos rfl]
          rfl
        · rw [mapLookup_delete, if_pos rfl]
        · intro q hq
          rw [mapLookup_delete, if_neg hq]
      · intro hfalse
        rw [hhost] at hfalse
        cases hfalse
    · rw [if_neg hhost]
      constructor
      · intro htrue
        exact absurd htrue hhost
      · intro _
        rcases hroom : mapLookup svc.rooms (heapGet svc.heap ref).room
          with _ | room
        · refine ⟨?_, ?_, ?_, ?_⟩
          · rw [mapLookup_delete, if_pos rfl]
          · intro q hq
            rw [mapLookup_delete, if_neg hq]
          · intro room hsome
            cases hsome
          · show hostCount svc (heapGet svc.heap ref).room ≤ 1
            unfold hostCount
            rw [hroom]
            exact Nat.zero_le 1
        · refine ⟨?_, ?_, ?_, ?_⟩
          · rw [validate_players, mapLookup_delete, if_pos rfl]
          · intro q hq
            rw [validate_players, mapLookup_delete, if_neg hq]
          · intro room2 hsome
            cases hsome
            rw [validate_rooms, mapLookup_set, if_pos rfl]
          · exact hostCount_validate_le_one _ _
  · exact ⟨by decide, by decide⟩

/-- C5 witness: the host-leave clause applied to the concrete Alice/Bob
room — Bob's registry entry survives Alice's leave. -/
theorem C5_witness :
    mapLookup (RoomService.leaveRoom svcAliceBob "a1").players "b1" =
      mapLookup svcAliceBob.players "b1" :=
  ((C5_leaveRoom_behavior.1 svcAliceBob "a1" 0 (by decide)).1
    (by decide)).2.2 "b1" (by decide)

/-- C1 amended: the receiver applies an incoming replicated state message
iff the message's timestamp is strictly greater than the locally held one
(0 when none is held) AND the message's originating server id differs from
the local server id; a message with same-or-older timestamp, or carrying
the local server id, leaves the service (gameState and isGameActive
included) entirely unchanged. -/
theorem C1_updateRoomState_reconciliation :
    (∀ svc tsid rn msg, msg.timestamp ≤ localTimestampOf svc rn →
      Controller.updateRoomState svc tsid rn msg = svc) ∧
    (∀ svc tsid rn msg, msg.serverId = tsid →
      Controller.updateRoomState svc tsid rn msg = svc) ∧
    (∀ svc tsid rn msg room, mapLookup svc.rooms rn = some room →
      localTimestampOf svc rn < msg.timestamp → msg.serverId ≠ tsid →
      mapLookup (Controller.updateRoomState svc tsid rn msg).rooms rn =
        some { room with
               gameState := some { msg.state with
                                   timestamp := some msg.timestamp }
               isGameActive := true } ∧
      (∀ rn2, rn2 ≠ rn →
        mapLookup (Controller.updateRoomState svc tsid rn msg).rooms rn2 =
          mapLookup svc.rooms rn2)) := by
  refine ⟨?_, ?_, ?_⟩
  · intro svc tsid rn msg h
    unfold Controller.updateRoomState
    split
    · rfl
    · rename_i room hroom
      have hl : localTimestampOf svc rn =
          (match room.gameState with
            | some gs => gs.timestamp.getD 0
            | none => 0) := by
        unfold localTimestampOf
        rw [hroom]
      rw [hl] at h
      dsimp only
      split_ifs with h1 h2
      · exact absurd h2.2 (Nat.not_lt.mpr h)
      · rfl
      · rfl
  · intro svc tsid rn msg h
    unfold Controller.updateRoomState
    split
    · rfl
    · rename_i room hroom
      dsimp only
      split_ifs with h1 h2
      · exact absurd h h2.1
      · rfl
      · rfl
  · intro svc tsid rn msg room hroom hlt hserv
    unfold Controller.updateRoomState
    rw [hroom]
    have hl : localTimestampOf svc rn =
        (match room.gameState with
          | some gs => gs.timestamp.getD 0
          | none => 0) := by
      unfold localTimestampOf
      rw [hroom]
    rw [hl] at hlt
    dsimp only
    rw [if_pos (Or.inl hlt), if_pos ⟨hserv, hlt⟩]
    constructor
    · rw [mapLookup_set, if_pos rfl]
    · intro rn2 hrn2
      rw [mapLookup_set, if_neg hrn2]

/-- C1 witness: a same-or-older-timestamp message and a self-originated
message are no-ops on the concrete room, and a newer foreign message is
applied. -/
theorem C1_witness :
    Controller.updateRoomState svcAlice "s0" "R" ⟨0, "s1", gsPayload⟩
      = svcAlice ∧
    Controller.updateRoomState svcAlice "default-server" "R" msgSelf
      = svcAlice ∧
    mapLookup (Controller.updateRoomState svcAlice "s0" "R"
        ⟨7, "s1", gsPayload⟩).rooms "R" =
      some { name := "R", password := "", hostName := "Alice"
             hostId := "a1", players := [("a1", 0)], guests := []
             gameState := some { gsPayload with timestamp := some 7 }
             isGameActive := true, selectedPlayers := [] } := by
  refine ⟨C1_updateRoomState_reconciliation.1 svcAlice "s0" "R" _ (by decide),
    C1_updateRoomState_reconciliation.2.1 svcAlice "default-server" "R"
      msgSelf rfl, ?_⟩
  have h3 := (C1_updateRoomState_reconciliation.2.2 svcAlice "s0" "R"
    ⟨7, "s1", gsPayload⟩
    { name := "R", password := "", hostName := "Alice", hostId := "a1"
      players := [("a1", 0)], guests := [], gameState := none
      isGameActive := false, selectedPlayers := [] }
    rfl (by decide) (by decide)).1
  exact h3

theorem findConflict_eq_head (svc : RoomService) (pn pid : String) :
    RoomService.findConflict svc pn pid =
      ((conflictEntries svc pn pid).head?).map (·.2) := by
  unfold RoomService.findConflict conflictEntries
  rw [List.find?_map, List.filter_head?]
  rfl

theorem V1_leaveRoom_heap (svc : RoomService) (x : String) :
    (V1.leaveRoom svc x).heap = svc.heap := by
  unfold V1.leaveRoom
  split
  · rfl
  · dsimp only
    split
    · rfl
    · rfl

theorem V1_leaveRoom_players (svc : RoomService) (x : String) (ref : Ref)
    (h : mapLookup svc.players x = some ref) :
    (V1.leaveRoom svc x).players = mapDelete svc.players x := by
  unfold V1.leaveRoom
  rw [h]
  dsimp only
  split
  · rfl
  · rfl

/-- C6 amended: the eviction pass of the basic join is unconditional — the
first same-named other-session player is always evicted, with no staleness
or activity check — and the join fails with the name-taken error if and
only if a same-named other-session player remains after that single
eviction (so a failure needs two or more such sessions); in particular,
when exactly one same-named other session exists globally, the second join
always succeeds: the conflicting session (stale or live) is evicted and
the joiner is registered. -/
theorem C6_join_evicts_unconditionally (svc : RoomService)
    (rn pw pid pn cid : String) (cref : Ref) (room : Room)
    (h1 : mapLookup svc.rooms rn = some room)
    (h2 : ¬ (room.password ≠ "" ∧ room.password ≠ pw))
    (hc : RoomService.findConflict svc pn pid = some cref)
    (h4 : (heapGet svc.heap cref).id = cid) :
    ((V1.performNormalJoin svc rn pw pid pn).2 =
        .error (.thrown "El nombre de jugador ya está en uso.") ↔
      (RoomService.findConflict (V1.leaveRoom svc cid) pn pid).isSome
        = true) ∧
    (conflictEntries svc pn pid = [(cid, cref)] →
      isOkE (V1.performNormalJoin svc rn pw pid pn).2 = true ∧
      mapLookup (V1.performNormalJoin svc rn pw pid pn).1.players cid
        = none ∧
      (mapLookup (V1.performNormalJoin svc rn pw pid pn).1.players
        pid).isSome = true) := by
  have hderive : conflictEntries svc pn pid = [(cid, cref)] →
      (V1.leaveRoom svc cid).players = mapDelete svc.players cid ∧
      cid ≠ pid ∧
      RoomService.findConflict (V1.leaveRoom svc cid) pn pid = none := by
    intro h3
    have hmem : ((cid, cref) : String × Ref) ∈ conflictEntries svc pn pid := by
      rw [h3]
      exact List.mem_singleton.mpr rfl
    have hpred : (decide ((heapGet svc.heap cref).name = pn ∧
        (heapGet svc.heap cref).id ≠ pid)) = true := by
      have := List.of_mem_filter hmem
      simpa using this
    have hcid_ne : cid ≠ pid := by
      have h5 := (of_decide_eq_true hpred).2
      rw [h4] at h5
      exact h5
    have hmem0 : ((cid, cref) : String × Ref) ∈ svc.players :=
      List.mem_of_mem_filter hmem
    have hlook : (mapLookup svc.players cid).isSome = true := by
      unfold mapLookup
      rcases hfind : svc.players.find? (fun e => decide (e.1 = cid)) with _ | e
      · exact absurd (by simp : (decide ((cid, cref).1 = cid)) = true)
          (by simpa using List.find?_eq_none.mp hfind (cid, cref) hmem0)
      · rw [hfind]
        rfl
    obtain ⟨ref0, href0⟩ := Option.isSome_iff_exists.mp hlook
    have hp1 : (V1.leaveRoom svc cid).players = mapDelete svc.players cid :=
      V1_leaveRoom_players svc cid ref0 href0
    have hh1 : (V1.leaveRoom svc cid).heap = svc.heap :=
      V1_leaveRoom_heap svc cid
    have hrecheck :
        RoomService.findConflict (V1.leaveRoom svc cid) pn pid = none := by
      rw [findConflict_eq_head]
      have hempty : conflictEntries (V1.leaveRoom svc cid) pn pid = [] := by
        unfold conflictEntries
        rw [hp1, hh1]
        unfold mapDelete
        rw [List.filter_filter]
        rw [List.filter_congr (fun a _ => Bool.and_comm _ _),
          ← List.filter_filter]
        have h3' : List.filter (fun e => decide
            ((heapGet svc.heap e.2).name = pn ∧
              (heapGet svc.heap e.2).id ≠ pid)) svc.players
            = [(cid, cref)] := h3
        rw [h3']
        simp
      rw [hempty]
      rfl
    exact ⟨hp1, hcid_ne, hrecheck⟩
  unfold V1.performNormalJoin
  rw [h1]
  dsimp only
  rw [if_neg h2, hc]
  dsimp only
  rw [h4]
  rcases hre : RoomService.findConflict (V1.leaveRoom svc cid) pn pid
    with _ | x
  · dsimp only
    constructor
    · constructor
      · intro hL
        simp [V1.finishJoin] at hL
      · intro hR
        simp at hR
    · intro h3
      rcases hderive h3 with ⟨hp1, hcid_ne, _⟩
      unfold V1.finishJoin
      dsimp only
      refine ⟨rfl, ?_, ?_⟩
      · rw [mapLookup_set, if_neg hcid_ne, hp1, mapLookup_delete,
          if_pos rfl]
      · rw [mapLookup_set, if_pos rfl]
        rfl
  · dsimp only
    constructor
    · exact ⟨fun _ => rfl, fun _ => rfl⟩
    · intro h3
      rcases hderive h3 with ⟨_, _, hrecheck⟩
      rw [hrecheck] at hre
      cases hre

/-- C6 witness: the amended statement at concrete inputs — with a single
live (isActive) Carol session, the second join evicts it and succeeds; with
two registered Carol sessions, the join still evicts only the first and
fails with the name-taken error. -/
theorem C6_witness :
    (isOkE (V1.performNormalJoin svcAliceCarol "R" "" "c2" "Carol").2
      = true ∧
    mapLookup (V1.performNormalJoin svcAliceCarol "R" "" "c2"
      "Carol").1.players "c1" = none ∧
    (mapLookup (V1.performNormalJoin svcAliceCarol "R" "" "c2"
      "Carol").1.players "c2").isSome = true) ∧
    (V1.performNormalJoin svcTwoCarols "R" "" "c2" "Carol").2 =
      .error (.thrown "El nombre de jugador ya está en uso.") := by
  constructor
  · exact (C6_join_evicts_unconditionally svcAliceCarol "R" "" "c2" "Carol"
      "c1" 1
      { name := "R", password := "", hostName := "Alice", hostId := "a1"
        players := [("a1", 0)], guests := [("c1", 1)], gameState := none
        isGameActive := false, selectedPlayers := [] }
      rfl (by decide) (by decide) (by decide)).2 (by decide)
  · exact (C6_join_evicts_unconditionally svcTwoCarols "R" "" "c2" "Carol"
      "c1" 1
      { name := "R", password := "", hostName := "Alice", hostId := "a1"
        players := [("a1", 0)], guests := [("c1", 1), ("c3", 2)]
        gameState := none, isGameActive := false, selectedPlayers := [] }
      rfl (by decide) (by decide) (by decide)).1.mpr (by decide)

theorem physicsSetsWinner_iff (s : Scores) :
    physicsSetsWinner s ↔ (5 ≤ s.player1 ∨ 5 ≤ s.player2) := by
  unfold physicsSetsWinner roomWinner Room.updateGamePhysics mkActiveRoom
  norm_num

theorem updateSetsWinner_iff (s : Scores) :
    updateSetsWinner s ↔ (10 ≤ s.player1 ∨ 10 ≤ s.player2) := by
  unfold updateSetsWinner roomWinner Room.updateGame mkActiveRoom
  by_cases h : 10 ≤ s.player1 ∨ 10 ≤ s.player2
  · simp [h]
  · simp [h]

/-- C2 counterexample: no single threshold N makes both the physics tick
and the client-driven update declare a winner exactly at score N — the
physics tick declares at 5 while updateGame does not declare at 5 (its
threshold is 10). -/
theorem C2_counterexample :
    ¬ ∃ N : Nat, ∀ s : Scores,
      (physicsSetsWinner s ↔ (N ≤ s.player1 ∨ N ≤ s.player2)) ∧
      (updateSetsWinner s ↔ (N ≤ s.player1 ∨ N ≤ s.player2)) := by
  rintro ⟨N, hN⟩
  have h1 := (hN ⟨0, 5⟩).1
  have h2 := (hN ⟨0, 5⟩).2
  rw [physicsSetsWinner_iff] at h1
  rw [updateSetsWinner_iff] at h2
  dsimp only at h1 h2
  omega

/-- C2 amended: the two winner-declaration paths use different thresholds —
the server-side physics tick declares a winner exactly when a score reaches
5, while the client-driven Room.updateGame declares one exactly when a
score reaches 10. -/
theorem C2_two_thresholds :
    ∀ s : Scores,
      (physicsSetsWinner s ↔ (5 ≤ s.player1 ∨ 5 ≤ s.player2)) ∧
      (updateSetsWinner s ↔ (10 ≤ s.player1 ∨ 10 ≤ s.player2)) :=
  fun s => ⟨physicsSetsWinner_iff s, updateSetsWinner_iff s⟩

/-- C8: during a physics tick in which the ball's x coordinate has crossed
below 0, player2's score increments by exactly 1 and the ball respawns at
the field centre (400, 300) with constant speed 500 and an angle drawn in
the 30°–60° band; but for EVERY value of the random draw the respawned
velocity has vx > 0, i.e. it points toward player2's (right) side — the
opposite of the claimed (and source-commented "Reset ball towards player 1
(left side)") direction toward player1. -/
theorem C8_ball_reset_direction (room : Room) (gs : GameState)
    (dt rPerturb rAngle : ℝ) (now : Nat)
    (hgs : room.gameState = some gs)
    (hact : room.isGameActive = true)
    (hout : gs.ball.x + gs.ball.vx * dt < 0)
    (hr0 : 0 ≤ rAngle) (hr1 : rAngle ≤ 1) :
    ∃ gs2, (room.updateGamePhysics dt rPerturb rAngle now).gameState
        = some gs2 ∧
      gs2.scores.player2 = gs.scores.player2 + 1 ∧
      gs2.scores.player1 = gs.scores.player1 ∧
      gs2.ball.x = 400 ∧ gs2.ball.y = 300 ∧
      gs2.ball.vx ^ 2 + gs2.ball.vy ^ 2 = 500 ^ 2 ∧
      (∃ θ : ℝ, Real.pi / 6 ≤ θ ∧ θ ≤ Real.pi / 3 ∧
        gs2.ball.vx = Real.cos θ * 500 ∧ gs2.ball.vy = Real.sin θ * 500) ∧
      0 < gs2.ball.vx := by
  have hpi := Real.pi_pos
  have hθ1 : Real.pi / 6 ≤ Real.pi / 6 + rAngle * (Real.pi / 6) := by nlinarith
  have hθ2 : Real.pi / 6 + rAngle * (Real.pi / 6) ≤ Real.pi / 3 := by nlinarith
  have hcos : 0 < Real.cos (Real.pi / 6 + rAngle * (Real.pi / 6)) := by
    apply Real.cos_pos_of_mem_Ioo
    constructor
    · have : (0 : ℝ) < Real.pi / 6 := by linarith
      linarith
    · have : Real.pi / 3 < Real.pi / 2 := by linarith
      linarith
  unfold Room.updateGamePhysics
  rw [hgs, hact]
  simp only [Bool.true_eq_false, if_false]
  rw [if_pos hout]
  refine ⟨_, rfl, rfl, rfl, rfl, rfl, ?_, ?_, ?_⟩
  · have := Real.sin_sq_add_cos_sq (Real.pi / 6 + rAngle * (Real.pi / 6))
    nlinarith [this]
  · exact ⟨Real.pi / 6 + rAngle * (Real.pi / 6), hθ1, hθ2, rfl, rfl⟩
  · positivity

/-- C8 witness: the failing input evaluated — ball at x = -10, draw 0; the
respawned velocity points rightward (vx > 0), toward player2. -/
theorem C8_witness :
    ∃ gs2, (roomBallOutLeft.updateGamePhysics 0 0 0 0).gameState = some gs2 ∧
      gs2.scores.player2 = 1 ∧ gs2.ball.x = 400 ∧ 0 < gs2.ball.vx := by
  obtain ⟨gs2, h1, h2, h3, h4, h5, h6, h7, h8⟩ :=
    C8_ball_reset_direction roomBallOutLeft _ 0 0 0 0 rfl rfl
      (by norm_num [roomBallOutLeft]) (by norm_num) (by norm_num)
  exact ⟨gs2, h1, by rw [h2], h4, h8⟩

/-- C9: submitPaddleUpdate fails with "Game not active" exactly when the
target room is absent or inactive (service-level updateGame, and the
controller's handleGameUpdate resolving the room through the sender); on
success it rewrites only gameState.paddles of the target room — the global
player map, the heap, every other room, and every other field of the room
and of its gameState are unchanged. -/
theorem C9_paddleUpdate_frame :
    (∀ svc rn pid gd,
      ((RoomService.updateGame svc rn pid gd).2 =
          .error (.thrown "Game not active") ↔
        ((mapLookup svc.rooms rn).isNone = true ∨
          ∃ room, mapLookup svc.rooms rn = some room ∧
            room.isGameActive = false))) ∧
    (∀ svc rn pid gd,
      (RoomService.updateGame svc rn pid gd).2 = .ok () →
      (RoomService.updateGame svc rn pid gd).1.players = svc.players ∧
      (RoomService.updateGame svc rn pid gd).1.heap = svc.heap ∧
      (∀ rn2, rn2 ≠ rn →
        mapLookup (RoomService.updateGame svc rn pid gd).1.rooms rn2 =
          mapLookup svc.rooms rn2) ∧
      ∃ room, mapLookup svc.rooms rn = some room ∧
        ((gd.paddles = none ∧
            (RoomService.updateGame svc rn pid gd).1 = svc) ∨
         (∃ pads gs, gd.paddles = some pads ∧ room.gameState = some gs ∧
           mapLookup (RoomService.updateGame svc rn pid gd).1.rooms rn =
             some { room with
                    gameState := some { gs with paddles := pads } }))) ∧
    (∀ svc sid gd ref,
      mapLookup svc.players sid = some ref →
      ((Controller.handleGameUpdate svc sid gd).2 =
          .error (.thrown "Game not active") ↔
        ((mapLookup svc.rooms (heapGet svc.heap ref).room).isNone = true ∨
          ∃ room, mapLookup svc.rooms (heapGet svc.heap ref).room
              = some room ∧ room.isGameActive = false))) := by
  refine ⟨?_, ?_, ?_⟩
  · intro svc rn pid gd
    unfold RoomService.updateGame
    split
    · rename_i hnone
      simp [hnone]
    · rename_i room hroom
      split_ifs with hact
      · simp only [hroom]
        constructor
        · intro _
          exact Or.inr ⟨room, rfl, hact⟩
        · intro _
          trivial
      · have hrhs : ¬ ((mapLookup svc.rooms rn).isNone = true ∨
            ∃ room2, mapLookup svc.rooms rn = some room2 ∧
              room2.isGameActive = false) := by
          rintro (h | ⟨room2, hr2, hact2⟩)
          · rw [hroom] at h
            cases h
          · rw [hroom] at hr2
            cases hr2
            exact hact hact2
        split
        · exact ⟨fun hfalse => by simp at hfalse, fun hr => absurd hr hrhs⟩
        · split
          · exact ⟨fun hfalse => by simp at hfalse, fun hr => absurd hr hrhs⟩
          · exact ⟨fun hfalse => by simp at hfalse, fun hr => absurd hr hrhs⟩
  · intro svc rn pid gd hok
    revert hok
    unfold RoomService.updateGame
    split
    · intro hok
      cases hok
    · rename_i room hroom
      split_ifs with hact
      · intro hok
        cases hok
      · split
        · rename_i hpads
          intro _
          refine ⟨rfl, rfl, fun rn2 _ => rfl, room, hroom, Or.inl ⟨hpads, rfl⟩⟩
        · rename_i pads hpads
          split
          · intro hok
            cases hok
          · rename_i gs hgs
            intro _
            refine ⟨rfl, rfl, ?_, room, hroom, Or.inr ⟨pads, gs, hpads, hgs, ?_⟩⟩
            · intro rn2 hrn2
              show mapLookup (mapSet svc.rooms rn _) rn2 = _
              rw [mapLookup_set, if_neg hrn2]
            · show mapLookup (mapSet svc.rooms rn _) rn = _
              rw [mapLookup_set, if_pos rfl]
  · intro svc sid gd ref href
    unfold Controller.handleGameUpdate
    rw [href]
    dsimp only
    split
    · rename_i hnone
      simp [hnone]
    · rename_i room hroom
      split_ifs with hact
      · simp only [hroom]
        constructor
        · intro _
          exact Or.inr ⟨room, rfl, hact⟩
        · intro _
          trivial
      · have hrhs : ¬ ((mapLookup svc.rooms
            (heapGet svc.heap ref).room).isNone = true ∨
            ∃ room2, mapLookup svc.rooms (heapGet svc.heap ref).room
              = some room2 ∧ room2.isGameActive = false) := by
          rintro (h | ⟨room2, hr2, hact2⟩)
          · rw [hroom] at h
            cases h
          · rw [hroom] at hr2
            cases hr2
            exact hact hact2
        split
        · exact ⟨fun hfalse => by simp at hfalse, fun hr => absurd hr hrhs⟩
        · split
          · exact ⟨fun hfalse => by simp at hfalse, fun hr => absurd hr hrhs⟩
          · exact ⟨fun hfalse => by simp at hfalse, fun hr => absurd hr hrhs⟩

/-- C9 witness: missing room and inactive room both produce the
"Game not active" error, at concrete inputs. -/
theorem C9_witness :
    (RoomService.updateGame emptyService "R" "p" ⟨none, none, none⟩).2 =
      .error (.thrown "Game not active") ∧
    (Controller.handleGameUpdate svcAliceBob "b1" ⟨none, none, none⟩).2 =
      .error (.thrown "Game not active") := by
  constructor
  · exact (C9_paddleUpdate_frame.1 emptyService "R" "p" _).mpr
      (Or.inl (by decide))
  · refine (C9_paddleUpdate_frame.2.2 svcAliceBob "b1" _ 1 (by decide)).mpr
      (Or.inr ⟨{ name := "R", password := "", hostName := "Alice"
                 hostId := "a1", players := [("a1", 0)], guests := [("b1", 1)]
                 gameState := none, isGameActive := false
                 selectedPlayers := [] }, ?_, rfl⟩)
    rfl

theorem playerCore_room (p p2 : Player) (h : playerCore p = playerCore p2) :
    p.room = p2.room := congrArg (fun t => t.2.2.1) h

theorem playerCore_name (p p2 : Player) (h : playerCore p = playerCore p2) :
    p.name = p2.name := congrArg (fun t => t.2.1) h

theorem mapLookup_mem {α : Type} (m : List (String × α)) (k : String)
    (v : α) (h : mapLookup m k = some v) :
    ∃ e, e ∈ m ∧ e.1 = k ∧ e.2 = v := by
  unfold mapLookup at h
  rcases hf : m.find? (fun e => e.1 = k) with _ | e
  · rw [hf] at h
    cases h
  · rw [hf] at h
    refine ⟨e, List.mem_of_find?_eq_some hf, ?_, by simpa using h⟩
    have := List.find?_some hf
    simpa using this

theorem heapGet_heapSetHost_self_true (h : List Player) (r : Ref)
    (hr : r < h.length) :
    (heapGet (heapSetHost h r true) r).isHost = true := by
  unfold heapSetHost
  rw [heapGet_heapSet_self _ _ _ hr]
  rfl

theorem resolveRequester_core (svc : RoomService) (rn : String)
    (room : Room) (hid : String) (s1 : RoomService) (r : Ref)
    (h : RoomService.resolveRequester svc rn room hid = some (s1, r)) :
    ∀ q, playerCore (heapGet s1.heap q) = playerCore (heapGet svc.heap q) := by
  unfold RoomService.resolveRequester at h
  revert h
  split
  · rename_i ref0 href0
    dsimp only
    split_ifs with hc
    · intro h q
      cases h
      rw [heapGet_heapSetHost_core, ensureSingleHost_core]
    · intro h q
      cases h
      rfl
  · split
    · rename_i ref0 href0
      dsimp only
      split_ifs with hc
      · intro h q
        cases h
        rw [heapGet_heapSetHost_core, ensureSingleHost_core]
      · intro h q
        cases h
        rfl
    · intro h
      cases h

theorem resolveRequester_of_lookup (svc : RoomService) (rn : String)
    (room : Room) (hid : String) (ref : Ref)
    (h : mapLookup svc.players hid = some ref) :
    ∃ s1, RoomService.resolveRequester svc rn room hid = some (s1, ref) := by
  unfold RoomService.resolveRequester
  rw [h]
  dsimp only
  split_ifs with hc
  · exact ⟨_, rfl⟩
  · exact ⟨_, rfl⟩

theorem resolveRequester_none_of_miss (svc : RoomService) (rn : String)
    (room : Room) (hid : String)
    (h : mapLookup svc.players hid = none)
    (hscan : RoomService.findHostByScan svc rn room.hostName = none) :
    RoomService.resolveRequester svc rn room hid = none := by
  unfold RoomService.resolveRequester
  rw [h, hscan]

theorem resolveRequester_ref_of_lookup (svc : RoomService) (rn : String)
    (room : Room) (hid : String) (ref : Ref) (s1 : RoomService) (r : Ref)
    (hl : mapLookup svc.players hid = some ref)
    (h : RoomService.resolveRequester svc rn room hid = some (s1, r)) :
    r = ref := by
  unfold RoomService.resolveRequester at h
  rw [hl] at h
  dsimp only at h
  revert h
  split_ifs with hc
  · intro h
    cases h
    rfl
  · intro h
    cases h
    rfl

theorem resolveRequester_some_of_scan (svc : RoomService) (rn : String)
    (room : Room) (hid : String) (ref : Ref)
    (h : mapLookup svc.players hid = none)
    (hscan : RoomService.findHostByScan svc rn room.hostName = some ref) :
    ∃ s1, RoomService.resolveRequester svc rn room hid = some (s1, ref) := by
  unfold RoomService.resolveRequester
  rw [h, hscan]
  dsimp only
  split_ifs with hc
  · exact ⟨_, rfl⟩
  · exact ⟨_, rfl⟩

theorem findHostByScan_mem (svc : RoomService) (rn hn : String) (ref : Ref)
    (h : RoomService.findHostByScan svc rn hn = some ref) :
    ∃ e, e ∈ svc.players ∧ e.2 = ref := by
  unfold RoomService.findHostByScan at h
  have hmem := List.mem_of_find?_eq_some h
  rcases List.mem_map.mp hmem with ⟨e, he, hev⟩
  exact ⟨e, he, hev⟩

theorem resolveRequester_final_isHost (svc : RoomService) (rn : String)
    (room : Room) (hid : String) (s1 : RoomService) (r : Ref)
    (hv : ValidPlayerRefs svc)
    (h : RoomService.resolveRequester svc rn room hid = some (s1, r)) :
    ((heapGet s1.heap r).isHost = false ↔
      (mapLookup svc.players hid = some r ∧
       (heapGet svc.heap r).isHost = false ∧
       (heapGet svc.heap r).name ≠ room.hostName)) := by
  unfold RoomService.resolveRequester at h
  revert h
  split
  · rename_i ref0 href0
    have hval : ref0 < svc.heap.length := by
      rcases mapLookup_mem _ _ _ href0 with ⟨e, he, _, he2⟩
      rw [← he2]
      exact hv e he
    dsimp only
    split_ifs with hc
    · intro h
      cases h
      have htrue : (heapGet (heapSetHost
          (svc.ensureSingleHost rn).heap r true) r).isHost = true := by
        apply heapGet_heapSetHost_self_true
        rw [ensureSingleHost_heap_length]
        exact hval
      constructor
      · intro hfalse
        rw [htrue] at hfalse
        cases hfalse
      · rintro ⟨_, _, hname⟩
        exact absurd hc.2 hname
    · intro h
      cases h
      constructor
      · intro hfalse
        exact ⟨href0, hfalse, fun hname => hc ⟨hfalse, hname⟩⟩
      · rintro ⟨_, hfalse, _⟩
        exact hfalse
  · rename_i hmiss
    split
    · rename_i ref0 href0
      have hval : ref0 < svc.heap.length := by
        rcases findHostByScan_mem _ _ _ _ href0 with ⟨e, he, he2⟩
        rw [← he2]
        exact hv e he
      dsimp only
      split_ifs with hc
      · intro h
        cases h
        have htrue : (heapGet (heapSetHost
            (svc.ensureSingleHost rn).heap r true) r).isHost = true := by
          apply heapGet_heapSetHost_self_true
          rw [ensureSingleHost_heap_length]
          exact hval
        constructor
        · intro hfalse
          rw [htrue] at hfalse
          cases hfalse
        · rintro ⟨hl, _, _⟩
          rw [hmiss] at hl
          cases hl
      · intro h
        cases h
        constructor
        · intro hfalse
          exact absurd hfalse hc
        · rintro ⟨hl, _, _⟩
          rw [hmiss] at hl
          cases hl
    · intro h
      cases h

theorem resolveRequester_ref_of_scan (svc : RoomService) (rn : String)
    (room : Room) (hid : String) (ref : Ref) (s1 : RoomService) (r : Ref)
    (hmiss : mapLookup svc.players hid = none)
    (hscan : RoomService.findHostByScan svc rn room.hostName = some ref)
    (h : RoomService.resolveRequester svc rn room hid = some (s1, r)) :
    r = ref := by
  unfold RoomService.resolveRequester at h
  rw [hmiss, hscan] at h
  dsimp only at h
  revert h
  split_ifs with hc
  · intro h
    cases h
    rfl
  · intro h
    cases h
    rfl

theorem playerMsg_ne_unauthorized (x : String) :
    ¬ ("Player " ++ x = "Unauthorized - Only the host can start the game") := by
  intro hx
  have hd : ("Player ").data ++ x.data =
      ("Unauthorized - Only the host can start the game").data := by
    rw [← String.data_append, hx]
  have hhead : (("Player ").data ++ x.data).head? =
      (("Unauthorized - Only the host can start the game").data).head? :=
    congrArg List.head? hd
  have h1 : (("Player ").data ++ x.data).head? = some 'P' := rfl
  have h2 : (("Unauthorized - Only the host can start the game").data).head?
      = some 'U' := rfl
  rw [h1, h2] at hhead
  cases hhead

/-- C7: startGame resolves the requester as host by display name — session
id lookup first, restoring host status when the name matches the room's
recorded hostName, with a fallback scan over the room's registered players
for the hostName when the id lookup misses.  It fails Unauthorized exactly
when the session id resolves to a player who is neither host nor named as
the host; it fails "Player not found" when both lookups miss; an authorized
in-room requester (by either resolution route) gets the exactly-2-players
error whenever the selected ids do not resolve to exactly 2 registered
players, and the player-not-in-room error naming the first selected player
whose room is not this room; and on every failure the rooms map — hence the
room's gameState and isGameActive — is unchanged. -/
theorem C7_startGame_failures (svc : RoomService) (rn hid : String)
    (ids : List String) (r1 r2 : ℝ) (now : Nat) (room : Room)
    (hv : ValidPlayerRefs svc)
    (h : mapLookup svc.rooms rn = some room) :
    ((RoomService.startGame svc rn hid ids r1 r2 now).2 =
        .error (.thrown "Unauthorized - Only the host can start the game") ↔
      (∃ ref, mapLookup svc.players hid = some ref ∧
        (heapGet svc.heap ref).isHost = false ∧
        (heapGet svc.heap ref).name ≠ room.hostName)) ∧
    (mapLookup svc.players hid = none →
      RoomService.findHostByScan svc rn room.hostName = none →
      (RoomService.startGame svc rn hid ids r1 r2 now).2 =
        .error (.thrown "Player not found - please rejoin the room")) ∧
    (∀ ref, (mapLookup svc.players hid = some ref ∧
        ((heapGet svc.heap ref).isHost = true ∨
          (heapGet svc.heap ref).name = room.hostName)) ∨
        (mapLookup svc.players hid = none ∧
          RoomService.findHostByScan svc rn room.hostName = some ref) →
      (heapGet svc.heap ref).room = rn →
      ((ids.filterMap (mapLookup svc.players)).length ≠ 2 →
        (RoomService.startGame svc rn hid ids r1 r2 now).2 =
          .error (.thrown "Must select exactly 2 players")) ∧
      (∀ q, (ids.filterMap (mapLookup svc.players)).length = 2 →
        (((ids.filterMap (mapLookup svc.players)).map
          (heapGet svc.heap)).find? fun x => decide (x.room ≠ rn)) = some q →
        (RoomService.startGame svc rn hid ids r1 r2 now).2 =
          .error (.thrown
            ("Player " ++ (q.name ++ (" is not in room " ++ rn)))))) ∧
    (∀ e, (RoomService.startGame svc rn hid ids r1 r2 now).2 = .error e →
      (RoomService.startGame svc rn hid ids r1 r2 now).1.rooms = svc.rooms)
    := by
  unfold RoomService.startGame
  rw [h]
  dsimp only
  rcases hres : RoomService.resolveRequester svc rn room hid with _ | ⟨s1, r⟩
  · dsimp only
    refine ⟨?_, ?_, ?_, ?_⟩
    · constructor
      · intro hL
        simp at hL
      · rintro ⟨ref, hl, _, _⟩
        rcases resolveRequester_of_lookup svc rn room hid ref hl with ⟨s0, hs0⟩
        rw [hres] at hs0
        cases hs0
    · intro _ _
      rfl
    · intro ref hcase _
      rcases hcase with ⟨hl, _⟩ | ⟨hmiss, hscan⟩
      · rcases resolveRequester_of_lookup svc rn room hid ref hl with ⟨s0, hs0⟩
        rw [hres] at hs0
        cases hs0
      · rcases resolveRequester_some_of_scan svc rn room hid ref hmiss hscan
          with ⟨s0, hs0⟩
        rw [hres] at hs0
        cases hs0
    · intro e _
      rfl
  · dsimp only
    have hcore := resolveRequester_core svc rn room hid s1 r hres
    have hfin := resolveRequester_final_isHost svc rn room hid s1 r hv hres
    have hply := resolveRequester_players svc rn room hid s1 r hres
    have hrrooms := resolveRequester_rooms svc rn room hid s1 r hres
    refine ⟨?_, ?_, ?_, ?_⟩
    · by_cases hfb : (heapGet s1.heap r).isHost = false
      · rw [if_pos hfb]
        constructor
        · intro _
          rcases hfin.mp hfb with ⟨hl, hf, hn⟩
          exact ⟨r, hl, hf, hn⟩
        · intro _
          rfl
      · rw [if_neg hfb]
        constructor
        · intro hL
          exfalso
          revert hL
          split_ifs with h1 h2
          · intro hL
            simp at hL
          · intro hL
            simp at hL
          · split
            · intro hL
              simp only [Prod.snd] at hL
              injection hL with hL2
              injection hL2 with hL3
              exact playerMsg_ne_unauthorized _ hL3
            · intro hL
              simp at hL
        · rintro ⟨ref, hl, hf, hn⟩
          have hrr := resolveRequester_ref_of_lookup svc rn room hid ref s1 r
            hl hres
          subst hrr
          exact absurd (hfin.mpr ⟨hl, hf, hn⟩) hfb
    · intro hmiss hscan
      have h0 := resolveRequester_none_of_miss svc rn room hid hmiss hscan
      rw [hres] at h0
      cases h0
    · intro ref hcase hroomm
      have hrr : r = ref := by
        rcases hcase with ⟨hl, _⟩ | ⟨hmiss, hscan⟩
        · exact resolveRequester_ref_of_lookup svc rn room hid ref s1 r hl hres
        · exact resolveRequester_ref_of_scan svc rn room hid ref s1 r hmiss
            hscan hres
      subst hrr
      have hfb : ¬ (heapGet s1.heap r).isHost = false := by
        intro hfb
        rcases hfin.mp hfb with ⟨hl2, hf2, hn2⟩
        rcases hcase with ⟨_, ha | ha⟩ | ⟨hmiss, _⟩
        · rw [ha] at hf2
          cases hf2
        · exact hn2 ha
        · rw [hmiss] at hl2
          cases hl2
      rw [if_neg hfb]
      have hroom1 : (heapGet s1.heap r).room = rn := by
        rw [playerCore_room _ _ (hcore r)]
        exact hroomm
      rw [if_neg (show ¬ (heapGet s1.heap r).room ≠ rn from
        fun hh => hh hroom1)]
      constructor
      · intro hcnt
        have hlen : ((ids.filterMap (mapLookup s1.players)).map
            (heapGet s1.heap)).length ≠ 2 := by
          rw [List.length_map, hply]
          exact hcnt
        rw [if_pos hlen]
      · intro q hcnt hfind
        have hlen : ¬ ((ids.filterMap (mapLookup s1.players)).map
            (heapGet s1.heap)).length ≠ 2 := by
          rw [List.length_map, hply]
          exact fun hc => hc hcnt
        rw [if_neg hlen]
        rw [List.find?_map] at hfind
        rcases Option.map_eq_some'.mp hfind with ⟨r0, hr0, hq⟩
        have hpredeq : ((fun x => decide (x.room ≠ rn)) ∘ (heapGet s1.heap))
            = ((fun x => decide (x.room ≠ rn)) ∘ (heapGet svc.heap)) := by
          funext x
          show decide ((heapGet s1.heap x).room ≠ rn)
            = decide ((heapGet svc.heap x).room ≠ rn)
          rw [playerCore_room _ _ (hcore x)]
        have hfind1 : (List.find? (fun q => decide (q.room ≠ rn))
            (List.map (heapGet s1.heap)
              (List.filterMap (mapLookup s1.players) ids)))
            = some (heapGet s1.heap r0) := by
          rw [List.find?_map, hply]
          show (List.find? ((fun x => decide (x.room ≠ rn)) ∘
            (heapGet s1.heap)) (List.filterMap (mapLookup svc.players) ids)).map
              (heapGet s1.heap) = some (heapGet s1.heap r0)
          rw [hpredeq, hr0]
          rfl
        rw [hfind1]
        dsimp only
        rw [playerCore_name _ _ (hcore r0), hq, String.append_assoc,
          String.append_assoc]
    · intro e he
      revert he
      split_ifs with h1 h2 h3
      · intro _
        exact hrrooms
      · intro _
        exact hrrooms
      · intro _
        exact hrrooms
      · split
        · intro _
          exact hrrooms
        · intro he
          simp at he

/-- C7 witness: Scenario B — guest Bob calls startGame and gets
Unauthorized. -/
theorem C7_witness :
    (RoomService.startGame svcAliceBob "R" "b1" [] 0 0 0).2 =
      .error (.thrown "Unauthorized - Only the host can start the game") :=
  (C7_startGame_failures svcAliceBob "R" "b1" [] 0 0 0
    { name := "R", password := "", hostName := "Alice", hostId := "a1"
      players := [("a1", 0)], guests := [("b1", 1)], gameState := none
      isGameActive := false, selectedPlayers := [] }
    (by unfold ValidPlayerRefs; decide) rfl).1.mpr
    ⟨1, by decide, by decide, by decide⟩
